import Mathlib

/-!
Verification of the eportal simulation core (spatial indexing, perception,
per-tick decision engine) against its Rust source (`src/body.rs`,
`src/main.rs`).  Floating-point numbers are modelled as real numbers;
the `f32` operations used by the code (arithmetic, sqrt, floor, max/min,
comparisons) are modelled by their exact real counterparts.  `Instant`
identities are modelled as natural numbers; `HashMap`s are modelled as
association lists whose order stands for the (arbitrary) hash-map iteration
order, and `HashSet`s of identities as duplicate-free lists.
-/

namespace Eportal

open Classical

/-- Squared Euclidean distance between two points (`Vec2` is `ℝ × ℝ`). -/
def dist2 (p q : ℝ × ℝ) : ℝ := (p.1 - q.1) ^ 2 + (p.2 - q.2) ^ 2

/-- `macroquad`'s `Vec2::distance`: Euclidean distance. -/
noncomputable def vdist (p q : ℝ × ℝ) : ℝ := Real.sqrt (dist2 p q)

/-! ## Enumerations from `body.rs` -/

/-- `ObjectType` (`body.rs`): the kind of an entity. -/
inductive ObjectType where
  | Body
  | Plant
  | Cross
deriving DecidableEq, Repr

/-- `Virus` (`body.rs`). -/
inductive Virus where
  | SpeedVirus
  | VisionVirus
deriving DecidableEq, Repr

/-- `Skill` (`body.rs`). -/
inductive Skill where
  | DoNotCompeteWithRelatives
  | AliveWhenArrived
  | ProfitableWhenArrived
  | PrioritizeFasterChasers
  | AvoidNewViruses
  | WillArriveFirst
  | EatCrossesOfMyType
  | AvoidInfectedCrosses
deriving DecidableEq, Repr

/-- `EatingStrategy` (`body.rs`). -/
inductive EatingStrategy where
  | Passive
  | Active
deriving DecidableEq, Repr

/-- `PlantKind` (`plant.rs`, used by `main.rs`): two tiers, `Banana` the
higher-value one (it is tried first in the forage cascade). -/
inductive PlantKind where
  | Banana
  | Grass
deriving DecidableEq, Repr

/-- `Status` (`body.rs`).  Identities are `ℕ`. -/
inductive StatusM where
  | FollowingTarget (targetId : ℕ) (targetPos : ℝ × ℝ) (targetType : ObjectType)
  | EscapingBody (chaserId : ℕ) (chaserType : ℕ)
  | Walking (posDeviation : ℝ × ℝ)
  | Cross
  | Idle

/-- `status != Status::Idle` as the Rust `PartialEq` computes it on the
`Idle` variant (a constructor test). -/
def StatusM.isIdle : StatusM → Prop
  | .Idle => True
  | _ => False

/-- `matches!(status, Status::Walking(..))`. -/
def StatusM.isWalking : StatusM → Prop
  | .Walking _ => True
  | _ => False

instance : DecidablePred StatusM.isIdle := by
  intro s; cases s <;> simp [StatusM.isIdle] <;> infer_instance

instance : DecidablePred StatusM.isWalking := by
  intro s; cases s <;> simp [StatusM.isWalking] <;> infer_instance

/-! ## Configuration constants

All `static mut` tunables (from `constants.rs` / `user_constants.rs`,
loaded by `config_setup`) are gathered in one record passed explicitly. -/

structure Params where
  minGap : ℝ                    -- MIN_GAP
  area : ℝ × ℝ                  -- area_size
  minEnergy : ℝ                 -- MIN_ENERGY
  constMass : ℝ                 -- ENERGY_SPENT_CONST_FOR_MASS
  constSkills : ℝ               -- ENERGY_SPENT_CONST_FOR_SKILLS
  constVision : ℝ               -- ENERGY_SPENT_CONST_FOR_VISION_DISTANCE
  constMovement : ℝ             -- ENERGY_SPENT_CONST_FOR_MOVEMENT
  constLifespan : ℝ             -- CONST_FOR_LIFESPAN
  lifespan : ℝ                  -- LIFESPAN
  crossLifespan : ℕ             -- CROSS_LIFESPAN (modelled in ticks, see CrossM.age)
  speedHealCost : ℝ             -- SPEEDVIRUS_ENERGY_SPENT_FOR_HEALING
  speedHealEnergy : ℝ           -- SPEEDVIRUS_HEAL_ENERGY
  speedDecrease : ℝ             -- SPEEDVIRUS_SPEED_DECREASE
  visionHealCost : ℝ            -- VISIONVIRUS_ENERGY_SPENT_FOR_HEALING
  visionHealEnergy : ℝ          -- VISIONVIRUS_HEAL_ENERGY
  visionDecrease : ℝ            -- VISIONVIRUS_VISION_DISTANCE_DECREASE
  avgSpeed : ℝ                  -- AVERAGE_SPEED
  avgVisionDistance : ℝ         -- AVERAGE_VISION_DISTANCE
  avgEnergy : ℝ                 -- AVERAGE_ENERGY
  avgDivisionThreshold : ℝ      -- AVERAGE_DIVISION_THRESHOLD
  skillsChangeChance : ℝ        -- SKILLS_CHANGE_CHANCE
  deviation : ℝ                 -- the deviation used by get_with_deviation

/-- `ENERGY_SPENT_FOR_HEALING` for a given virus (the match arms of
`handle_viruses`). -/
def virusCost (P : Params) : Virus → ℝ
  | .SpeedVirus => P.speedHealCost
  | .VisionVirus => P.visionHealCost

/-- `HEAL_ENERGY` (cure threshold) for a given virus. -/
def virusHeal (P : Params) : Virus → ℝ
  | .SpeedVirus => P.speedHealEnergy
  | .VisionVirus => P.visionHealEnergy

/-! ## The agent (`Body`) record

`followed_by` stores, per pursuer identity, a clone of the pursuer.  The
code only ever reads a clone's `pos`, `speed` and `body_type` (escape
target choice, `handle_will_arrive_first_*`,
`handle_do_not_compete_with_relatives`), so the clone is modelled by the
record of exactly those fields. -/

structure Snap where
  pos : ℝ × ℝ
  speed : ℝ
  bodyType : ℕ

/-- The `Body` struct (`body.rs`).  The virus map is a function from the
two-element `Virus` type to an optional accumulated-healing counter. -/
structure BodyM where
  pos : ℝ × ℝ
  energy : ℝ
  speed : ℝ
  visionDistance : ℝ
  eatingStrategy : EatingStrategy
  divisionThreshold : ℝ
  skills : Finset Skill
  viruses : Virus → Option ℝ
  status : StatusM
  bodyType : ℕ
  lifespan : ℝ
  initialSpeed : ℝ
  initialVisionDistance : ℝ
  followedBy : List (ℕ × Snap)
  /-- `body_id.elapsed()` at the current tick (the identity is a creation
  timestamp in the source; its elapsed wall-clock time is an input here). -/
  age : ℝ

/-- The clone of a body stored into a pursuer map (the fields of the clone
the code subsequently reads). -/
def BodyM.snap (b : BodyM) : Snap := ⟨b.pos, b.speed, b.bodyType⟩

/-- Modelled from the spec (src/plant.rs is not in the sources): a `Plant`
has a position, a kind, a pursuer map, and a contained energy derived from
its size (`get_contained_energy` is modelled as reading this field). -/
structure PlantM where
  pos : ℝ × ℝ
  kind : PlantKind
  containedEnergy : ℝ
  followedBy : List (ℕ × Snap)

/-- Modelled from the spec (src/cross.rs is not in the sources): a `Cross`
(corpse) has a position, residual energy, the inherited infection map, a
lineage tag, a pursuer map and a creation timestamp.  Its wall-clock age is
modelled as the number of elapsed ticks. -/
structure CrossM where
  pos : ℝ × ℝ
  energy : ℝ
  viruses : Virus → Option ℝ
  bodyType : ℕ
  followedBy : List (ℕ × Snap)
  age : ℕ

/-- Modelled from the spec: `Cross::new(&body)` builds the corpse from the
dead agent: its position, residual energy, infection map and lineage tag,
with a fresh timestamp and an empty pursuer map. -/
def crossNew (b : BodyM) : CrossM :=
  { pos := b.pos
    energy := b.energy
    viruses := b.viruses
    bodyType := b.bodyType
    followedBy := []
    age := 0 }

/-! ## `Body::wrap` (body.rs lines 333-345) -/

/-- `wrap`: each coordinate at or beyond an edge is reset to the fixed
offset `MIN_GAP` inside the opposite edge. -/
noncomputable def wrap (P : Params) (pos : ℝ × ℝ) : ℝ × ℝ :=
  let x := if pos.1 ≥ P.area.1 then P.minGap
           else if pos.1 ≤ 0 then P.area.1 - P.minGap
           else pos.1
  let y := if pos.2 ≥ P.area.2 then P.minGap
           else if pos.2 ≤ 0 then P.area.2 - P.minGap
           else pos.2
  (x, y)

/-- A default parameter record (all tunables zero); concrete theorem
instances override the fields they need. -/
def Params.base : Params :=
  { minGap := 0, area := (0, 0), minEnergy := 0, constMass := 0, constSkills := 0
    constVision := 0, constMovement := 0, constLifespan := 0, lifespan := 0
    crossLifespan := 0, speedHealCost := 0, speedHealEnergy := 0, speedDecrease := 0
    visionHealCost := 0, visionHealEnergy := 0, visionDecrease := 0, avgSpeed := 0
    avgVisionDistance := 0, avgEnergy := 0, avgDivisionThreshold := 0
    skillsChangeChance := 0, deviation := 0 }

/-- Parameters for the C9 witness: arena 10 × 10, `MIN_GAP = 1`. -/
def P9 : Params := { Params.base with minGap := 1, area := (10, 10) }

/-! ## Association lists (HashMap model) and list helpers -/

/-- `HashMap::get`. -/
def lookupA {α : Type} : List (ℕ × α) → ℕ → Option α
  | [], _ => none
  | (k, v) :: l, k' => if k = k' then some v else lookupA l k'

/-- `HashMap::remove` (by key). -/
def removeA {α : Type} : List (ℕ × α) → ℕ → List (ℕ × α)
  | [], _ => []
  | (k, v) :: l, k' => if k = k' then removeA l k' else (k, v) :: removeA l k'

/-- `HashMap::insert`: replaces the value if the key is present, otherwise
adds the entry. -/
def insertA {α : Type} : List (ℕ × α) → ℕ → α → List (ℕ × α)
  | [], k', v' => [(k', v')]
  | (k, v) :: l, k', v' =>
      if k = k' then (k, v') :: l else (k, v) :: insertA l k' v'

/-- Update the value at a key if present, do nothing otherwise
(`if let Some(x) = map.get_mut(&k) { ... }`). -/
def updateA {α : Type} (f : α → α) : List (ℕ × α) → ℕ → List (ℕ × α)
  | [], _ => []
  | (k, v) :: l, k' => if k = k' then (k, f v) :: l else (k, v) :: updateA f l k'

/-- `HashSet::insert` on an insertion-ordered duplicate-free list. -/
def insertS (l : List ℕ) (k : ℕ) : List ℕ := if k ∈ l then l else l ++ [k]

/-- Iterator `filter` with a propositional predicate (hash-map iteration
filtered in place). -/
noncomputable def filterP {α : Type} (p : α → Prop) : List α → List α
  | [] => []
  | a :: l => if p a then a :: filterP p l else filterP p l

/-- One step of Rust `Iterator::min_by`: keep the earlier element on ties. -/
noncomputable def minStep {α : Type} (f : α → ℝ) (acc : Option α) (x : α) : Option α :=
  match acc with
  | none => some x
  | some a => if f x < f a then some x else some a

/-- Rust `Iterator::min_by` with a real-valued key: returns the first
element attaining the minimum (`None` on an empty iterator). -/
noncomputable def minBy {α : Type} (f : α → ℝ) (l : List α) : Option α :=
  l.foldl (minStep f) none

/-! ## Body methods translated from `body.rs` -/

/-- `handle_viruses` (body.rs lines 573-610): for each virus the body
carries, deduct its healing cost from the energy (floored at 0) and add the
cost to the accumulated-healing counter, then retain only the viruses whose
counter has not strictly exceeded the heal threshold.  The hash map is
iterated in the fixed order SpeedVirus, VisionVirus (the result is
independent of the order). -/
noncomputable def handleViruses (P : Params) (b : BodyM) : BodyM :=
  let step : BodyM → Virus → BodyM := fun b v =>
    match b.viruses v with
    | none => b
    | some cnt =>
        { b with
          energy := max (b.energy - virusCost P v) 0
          viruses := fun v2 => if v2 = v then some (cnt + virusCost P v) else b.viruses v2 }
  let b1 := step (step b .SpeedVirus) .VisionVirus
  { b1 with
    viruses := fun v =>
      match b1.viruses v with
      | none => none
      | some cnt => if cnt ≤ virusHeal P v then some cnt else none }

/-- `handle_lifespan` (body.rs lines 692-700). -/
noncomputable def handleLifespan (P : Params) (b : BodyM) : BodyM :=
  if b.status.isIdle then b
  else { b with lifespan := max (b.lifespan - P.constLifespan * b.speed ^ 2 * b.energy) 0 }

/-- `handle_energy` (body.rs lines 664-689): deduct the upkeep cost
(mass + skills + vision, plus movement when not idle); if the energy drops
to 0 or below, insert the body into the removal set and report death. -/
noncomputable def handleEnergy (P : Params) (b : BodyM) (id : ℕ)
    (removed : List ℕ) : BodyM × List ℕ × Bool :=
  let e1 := b.energy -
    (P.constMass * b.energy + P.constSkills * (b.skills.card : ℝ) +
      P.constVision * b.visionDistance ^ 2)
  let e2 := if b.status.isIdle then e1
            else e1 - P.constMovement * b.speed ^ 2 * e1
  let b1 := { b with energy := e2 }
  if e2 ≤ 0 then (b1, insertS removed id, true) else (b1, removed, false)

/-- `get_spent_energy` (body.rs lines 740-749). -/
noncomputable def getSpentEnergy (P : Params) (b : BodyM) (time : ℝ) : ℝ :=
  time * P.constMovement * b.speed ^ 2 * b.energy +
    P.constMass * b.energy +
    P.constSkills * (b.skills.card : ℝ) +
    P.constVision * b.visionDistance ^ 2

/-- `apply_virus` (body.rs lines 457-468): permanent stat penalty. -/
def applyVirus (P : Params) (b : BodyM) (v : Virus) : BodyM :=
  match v with
  | .SpeedVirus => { b with speed := b.speed - b.speed * P.speedDecrease }
  | .VisionVirus =>
      { b with visionDistance := b.visionDistance - b.visionDistance * P.visionDecrease }

/-- `get_viruses` (body.rs lines 446-453): gain every virus of the victim
the body does not already carry, with counter 0, applying its stat penalty;
viruses already carried are untouched.  Keys are visited in the fixed order
SpeedVirus, VisionVirus (the result is independent of the order). -/
def getViruses (P : Params) (b : BodyM) (vs : Virus → Option ℝ) : BodyM :=
  let step : BodyM → Virus → BodyM := fun b v =>
    match vs v with
    | none => b
    | some _ =>
        match b.viruses v with
        | some _ => b
        | none =>
            applyVirus P
              { b with viruses := fun v2 => if v2 = v then some 0 else b.viruses v2 } v
  step (step b .SpeedVirus) .VisionVirus

/-- `handle_profitable_when_arrived_body` (body.rs lines 871-888). -/
noncomputable def handleProfitableWhenArrivedBody (P : Params) (b other : BodyM) : Prop :=
  if Skill.ProfitableWhenArrived ∈ b.skills then
    if b.speed - other.speed ≤ 0 then False
    else getSpentEnergy P b (vdist b.pos other.pos / (b.speed - other.speed)) < other.energy
  else True

/-- `handle_profitable_when_arrived_plant` (body.rs lines 891-902). -/
noncomputable def handleProfitableWhenArrivedPlant (P : Params) (b : BodyM) (p : PlantM) : Prop :=
  if Skill.ProfitableWhenArrived ∈ b.skills then
    getSpentEnergy P b (vdist b.pos p.pos / b.speed) < p.containedEnergy
  else True

/-- `handle_profitable_when_arrived_cross` (body.rs lines 905-916). -/
noncomputable def handleProfitableWhenArrivedCross (P : Params) (b : BodyM) (c : CrossM) : Prop :=
  if Skill.ProfitableWhenArrived ∈ b.skills then
    getSpentEnergy P b (vdist b.pos c.pos / b.speed) < c.energy
  else True

/-- `handle_alive_when_arrived_cross` (body.rs lines 919-932). -/
noncomputable def handleAliveWhenArrivedCross (P : Params) (b : BodyM) (c : CrossM) : Prop :=
  if Skill.AliveWhenArrived ∈ b.skills then
    b.energy - getSpentEnergy P b (vdist b.pos c.pos / b.speed) > P.minEnergy
  else True

/-- `handle_alive_when_arrived_body` (body.rs lines 935-954). -/
noncomputable def handleAliveWhenArrivedBody (P : Params) (b other : BodyM) : Prop :=
  if Skill.AliveWhenArrived ∈ b.skills then
    if b.speed - other.speed ≤ 0 then False
    else b.energy - getSpentEnergy P b (vdist b.pos other.pos / (b.speed - other.speed)) > P.minEnergy
  else True

/-- `handle_alive_when_arrived_plant` (body.rs lines 957-970). -/
noncomputable def handleAliveWhenArrivedPlant (P : Params) (b : BodyM) (p : PlantM) : Prop :=
  if Skill.AliveWhenArrived ∈ b.skills then
    b.energy - getSpentEnergy P b (vdist b.pos p.pos / b.speed) > P.minEnergy
  else True

/-- `handle_avoid_new_viruses_cross` (body.rs lines 973-985). -/
noncomputable def handleAvoidNewVirusesCross (b : BodyM) (c : CrossM) : Prop :=
  if Skill.AvoidNewViruses ∈ b.skills then
    ∀ v, (c.viruses v).isSome → (b.viruses v).isSome
  else True

/-- `handle_avoid_new_viruses_body` (body.rs lines 988-1000). -/
noncomputable def handleAvoidNewVirusesBody (b other : BodyM) : Prop :=
  if Skill.AvoidNewViruses ∈ b.skills then
    ∀ v, (other.viruses v).isSome → (b.viruses v).isSome
  else True

/-- `handle_do_not_compete_with_relatives` (body.rs lines 1003-1016). -/
noncomputable def handleDoNotCompeteWithRelatives (b : BodyM) (id : ℕ)
    (followedBy : List (ℕ × Snap)) : Prop :=
  if Skill.DoNotCompeteWithRelatives ∈ b.skills then
    ∀ p ∈ followedBy, p.1 = id ∨ p.2.bodyType ≠ b.bodyType
  else True

/-- `handle_will_arrive_first_cross` (body.rs lines 1018-1035). -/
noncomputable def handleWillArriveFirstCross (b : BodyM) (id : ℕ) (c : CrossM) : Prop :=
  if Skill.WillArriveFirst ∈ b.skills then
    ∀ p ∈ c.followedBy, p.1 = id ∨
      vdist b.pos c.pos / b.speed < vdist p.2.pos c.pos / p.2.speed
  else True

/-- `handle_will_arrive_first_body` (body.rs lines 1038-1066): fails closed
when the pursuer is not strictly faster; a competing chaser that is not
strictly faster than the target is never considered to arrive earlier. -/
noncomputable def handleWillArriveFirstBody (b : BodyM) (id : ℕ) (other : BodyM) : Prop :=
  if Skill.WillArriveFirst ∈ b.skills then
    if b.speed - other.speed ≤ 0 then False
    else
      ∀ p ∈ other.followedBy, p.1 = id ∨
        (p.2.speed - other.speed > 0 ∧
          vdist b.pos other.pos / (b.speed - other.speed) <
            vdist p.2.pos other.pos / (p.2.speed - other.speed))
  else True

/-- `handle_will_arrive_first_plant` (body.rs lines 1069-1086). -/
noncomputable def handleWillArriveFirstPlant (b : BodyM) (id : ℕ) (p : PlantM) : Prop :=
  if Skill.WillArriveFirst ∈ b.skills then
    ∀ q ∈ p.followedBy, q.1 = id ∨
      vdist b.pos p.pos / b.speed < vdist q.2.pos p.pos / q.2.speed
  else True

/-- `handle_eat_crosses_of_my_type` (body.rs lines 1089-1095). -/
def handleEatCrossesOfMyType (b : BodyM) (c : CrossM) : Prop :=
  b.bodyType ≠ c.bodyType ∨ Skill.EatCrossesOfMyType ∈ b.skills

/-- `find_closest_plant` (body.rs lines 854-868): among the filtered
visible plants, those of the requested kind, the one nearest to the body. -/
noncomputable def findClosestPlant (b : BodyM) (visiblePlants : List (ℕ × PlantM))
    (kind : PlantKind) : Option (ℕ × PlantM) :=
  minBy (fun q => vdist b.pos q.2.pos)
    (filterP (fun q => q.2.kind = kind) visiblePlants)

/-! ## Birth (`Body::new`) and procreation -/

/-- Modelled from the spec (the helper `get_with_deviation` is not in the
sources): the value re-rolled with the configured random deviation around
the baseline `x`; the random draw is the factor `u`, which the rng keeps
inside `[-DEVIATION, DEVIATION]`, so the result lies in the band
`[x * (1 - DEVIATION), x * (1 + DEVIATION)]` (for `x ≥ 0`). -/
def getWithDeviation (x u : ℝ) : ℝ := x * (1 + u)

/-- The random draws consumed by one `Body::new` call. -/
structure NewDraws where
  speedU : ℝ                      -- deviation factor for the speed roll
  visionU : ℝ                     -- deviation factor for the vision roll
  energyU : ℝ                     -- deviation factor for a first-generation energy roll
  divisionU : ℝ                   -- deviation factor for the division-threshold roll
  skillsRoll : ℝ                  -- rng.gen_range(0.0..1.0) against SKILLS_CHANGE_CHANCE
  skillsCoin : Bool               -- random::<bool>(): true chooses insertion
  skillAddPick : Option Skill     -- the absent skill chosen (None when all are held)
  skillRemovePick : Option Skill  -- the held skill chosen (None when none are held)
  firstGenViruses : Virus → Option ℝ  -- first-generation infection draws

/-- The `for virus in body.viruses.clone().keys() body.apply_virus(..)`
loop at the end of `Body::new`: apply the stat penalty of every virus the
newborn carries (fixed SpeedVirus, VisionVirus order; the two arms touch
different fields). -/
def applyAllViruses (P : Params) (b : BodyM) : BodyM :=
  let b1 := match b.viruses .SpeedVirus with
    | some _ => applyVirus P b .SpeedVirus
    | none => b
  match b1.viruses .VisionVirus with
  | some _ => applyVirus P b1 .VisionVirus
  | none => b1

/-- `Body::new` (body.rs lines 202-330).  `initial_speed`/`initial_vision`
record the rolled values before the virus penalties are applied. -/
noncomputable def bodyNew (P : Params) (pos : ℝ × ℝ) (energy : Option ℝ)
    (strat : EatingStrategy) (divisionThreshold : Option ℝ)
    (skills : Option (Finset Skill)) (bodyType : ℕ)
    (viruses : Option (Virus → Option ℝ))
    (initialSpeed initialVisionDistance : Option ℝ) (d : NewDraws) : BodyM :=
  let speed := getWithDeviation (initialSpeed.getD P.avgSpeed) d.speedU
  let vision := getWithDeviation (initialVisionDistance.getD P.avgVisionDistance) d.visionU
  let b : BodyM :=
    { pos := pos
      energy := match energy with
        | some e => e / 2
        | none => getWithDeviation P.avgEnergy d.energyU
      speed := speed
      visionDistance := vision
      eatingStrategy := strat
      divisionThreshold :=
        getWithDeviation (divisionThreshold.getD P.avgDivisionThreshold) d.divisionU
      skills := match skills with
        | some s =>
            if d.skillsRoll ≤ P.skillsChangeChance then
              if d.skillsCoin then
                match d.skillAddPick with
                | some k => insert k s
                | none => s
              else
                match d.skillRemovePick with
                | some k => s.erase k
                | none => s
            else s
        | none => ∅
      viruses := match viruses with
        | some vs => vs
        | none => d.firstGenViruses
      status := .Idle
      bodyType := bodyType
      lifespan := P.lifespan
      initialSpeed := speed
      initialVisionDistance := vision
      followedBy := []
      age := 0 }
  applyAllViruses P b

/-- `handle_procreation` (body.rs lines 704-737): if the energy exceeds the
division threshold, insert two children built by `Body::new` from the
parent's pre-split energy and original baselines, and mark the parent for
removal.  The two fresh identities and the rng draws are inputs. -/
noncomputable def handleProcreation (P : Params) (b : BodyM) (id : ℕ)
    (cid1 cid2 : ℕ) (d1 d2 : NewDraws)
    (newBodies : List (ℕ × BodyM)) (removed : List ℕ) :
    List (ℕ × BodyM) × List ℕ × Bool :=
  if b.energy > b.divisionThreshold then
    let child : NewDraws → BodyM := fun d =>
      bodyNew P b.pos (some b.energy) b.eatingStrategy (some b.divisionThreshold)
        (some b.skills) b.bodyType (some b.viruses) (some b.initialSpeed)
        (some b.initialVisionDistance) d
    (insertA (insertA newBodies cid1 (child d1)) cid2 (child d2),
      insertS removed id, true)
  else (newBodies, removed, false)

/-! ## Forage candidate selection (main.rs lines 394-540)

The source collects visible food with the `get_visible` macro; by theorem
`C1_get_visible_exact` (proved below over the grid embedding), that query
returns exactly the entities within Euclidean distance ≤ vision radius, so
visibility is modelled here by that exact distance filter. -/

/-- `FoodInfo` (body.rs lines 27-34). -/
structure FoodInfoM where
  id : ℕ
  foodType : ObjectType
  pos : ℝ × ℝ
  energy : ℝ
  viruses : Option (Virus → Option ℝ)

/-- The cross filter of the forage cascade (main.rs lines 414-430): the six
predicates actually tested on a visible corpse. -/
noncomputable def crossPred (P : Params) (b : BodyM) (id : ℕ) (c : CrossM) : Prop :=
  handleEatCrossesOfMyType b c ∧
  handleAliveWhenArrivedCross P b c ∧
  handleProfitableWhenArrivedCross P b c ∧
  handleAvoidNewVirusesCross b c ∧
  handleWillArriveFirstCross b id c ∧
  handleDoNotCompeteWithRelatives b id c.followedBy

/-- Visible corpses surviving the cross filter. -/
noncomputable def crossCandidates (P : Params) (b : BodyM) (id : ℕ)
    (crosses : List (ℕ × CrossM)) : List (ℕ × CrossM) :=
  filterP (fun q => crossPred P b id q.2)
    (filterP (fun q => vdist b.pos q.2.pos ≤ b.visionDistance) crosses)

/-- The plant filter (main.rs lines 454-468). -/
noncomputable def plantPred (P : Params) (b : BodyM) (id : ℕ)
    (removedPlants : List ℕ) (pid : ℕ) (p : PlantM) : Prop :=
  pid ∉ removedPlants ∧
  handleAliveWhenArrivedPlant P b p ∧
  handleProfitableWhenArrivedPlant P b p ∧
  handleDoNotCompeteWithRelatives b id p.followedBy ∧
  handleWillArriveFirstPlant b id p

/-- Visible plants surviving the plant filter. -/
noncomputable def plantCandidates (P : Params) (b : BodyM) (id : ℕ)
    (removedPlants : List ℕ) (plants : List (ℕ × PlantM)) : List (ℕ × PlantM) :=
  filterP (fun q => plantPred P b id removedPlants q.1 q.2)
    (filterP (fun q => vdist b.pos q.2.pos ≤ b.visionDistance) plants)

/-- The body (prey) filter (main.rs lines 499-521). -/
noncomputable def bodyPred (P : Params) (b : BodyM) (id : ℕ)
    (removedBodies : List ℕ) (oid : ℕ) (o : BodyM) : Prop :=
  b.bodyType ≠ o.bodyType ∧
  id ≠ oid ∧
  b.energy > o.energy ∧
  vdist b.pos o.pos ≤ b.visionDistance ∧
  oid ∉ removedBodies ∧
  handleAliveWhenArrivedBody P b o ∧
  handleProfitableWhenArrivedBody P b o ∧
  handleAvoidNewVirusesBody b o ∧
  handleWillArriveFirstBody b id o ∧
  handleDoNotCompeteWithRelatives b id o.followedBy

/-- Live agents surviving the prey filter. -/
noncomputable def bodyCandidates (P : Params) (b : BodyM) (id : ℕ)
    (removedBodies : List ℕ) (bodies : List (ℕ × BodyM)) : List (ℕ × BodyM) :=
  filterP (fun q => bodyPred P b id removedBodies q.1 q.2) bodies

/-- The forage selection cascade (main.rs lines 394-540): nearest filtered
visible corpse, else nearest filtered visible Banana plant, else Grass
plant, else nearest filtered opposing-lineage weaker agent. -/
noncomputable def selectFood (P : Params) (b : BodyM) (id : ℕ)
    (bodies : List (ℕ × BodyM)) (plants : List (ℕ × PlantM))
    (crosses : List (ℕ × CrossM)) (removedPlants removedBodies : List ℕ) :
    Option FoodInfoM :=
  match minBy (fun q => vdist b.pos q.2.pos) (crossCandidates P b id crosses) with
  | some (cid, c) => some ⟨cid, .Cross, c.pos, c.energy, some c.viruses⟩
  | none =>
    let filteredPlants := plantCandidates P b id removedPlants plants
    let closest := match findClosestPlant b filteredPlants .Banana with
      | some q => some q
      | none => findClosestPlant b filteredPlants .Grass
    match closest with
    | some (pid, p) => some ⟨pid, .Plant, p.pos, p.containedEnergy, none⟩
    | none =>
      match minBy (fun q => vdist b.pos q.2.pos)
          (bodyCandidates P b id removedBodies bodies) with
      | some (oid, o) => some ⟨oid, .Body, o.pos, o.energy, some o.viruses⟩
      | none => none

/-! ## The tick (main.rs lines 313-694)

One simulation tick over the committed state.  Structural mutations are
buffered into per-tick removal/insertion sets and applied after the sweep,
as in the source.  The sweep iterates the agent registry in association
list order (hash-map iteration order is arbitrary in the source); mutations
performed through the `&mut` alias of the current body are modelled by a
working copy written back at the points where the source's borrow ends.
The pre-sweep plant die-off is an input (`removedPlants0`); the plant
spawning pass, the rendering and the input handling (out of scope) are
omitted. -/

structure St where
  bodies : List (ℕ × BodyM)
  plants : List (ℕ × PlantM)
  crosses : List (ℕ × CrossM)
  newBodies : List (ℕ × BodyM)
  removedBodies : List ℕ
  removedPlants : List ℕ
  removedCrosses : List ℕ

/-- The per-body random draws consumed during one tick. -/
structure Draws where
  walkDir : ℝ × ℝ       -- (cos θ, sin θ) of the walking angle draw
  child1 : NewDraws
  child2 : NewDraws
  childId1 : ℕ          -- Instant::now() identity for the first child
  childId2 : ℕ

/-- Remove a follower entry from a body's pursuer map. -/
def dropFollowerB (id : ℕ) (t : BodyM) : BodyM :=
  { t with followedBy := removeA t.followedBy id }

/-- Remove a follower entry from a corpse's pursuer map. -/
def dropFollowerC (id : ℕ) (t : CrossM) : CrossM :=
  { t with followedBy := removeA t.followedBy id }

/-- Remove a follower entry from a plant's pursuer map. -/
def dropFollowerP (id : ℕ) (t : PlantM) : PlantM :=
  { t with followedBy := removeA t.followedBy id }

/-- Register a follower's clone in a body's pursuer map. -/
def addFollowerB (id : ℕ) (s : Snap) (t : BodyM) : BodyM :=
  { t with followedBy := insertA t.followedBy id s }

/-- Register a follower's clone in a corpse's pursuer map. -/
def addFollowerC (id : ℕ) (s : Snap) (t : CrossM) : CrossM :=
  { t with followedBy := insertA t.followedBy id s }

/-- Register a follower's clone in a plant's pursuer map. -/
def addFollowerP (id : ℕ) (s : Snap) (t : PlantM) : PlantM :=
  { t with followedBy := insertA t.followedBy id s }

/-- `Body::followed_by_cleanup` (body.rs lines 1098-1144): if the follower
is following a target other than the food it just chose, remove the
follower from that target's pursuer map (silently skipping targets that no
longer exist). -/
noncomputable def cleanup (st : St) (status : StatusM) (id : ℕ) (food : Option ℕ) : St :=
  match status with
  | .FollowingTarget tid _ tty =>
      if food = some tid then st
      else
        match tty with
        | .Body =>
            { st with bodies := updateA (dropFollowerB id) st.bodies tid }
        | .Cross =>
            { st with crosses := updateA (dropFollowerC id) st.crosses tid }
        | .Plant =>
            { st with plants := updateA (dropFollowerP id) st.plants tid }
  | _ => st

/-- `handle_walking_idle` (body.rs lines 614-660). -/
noncomputable def handleWalkingIdle (P : Params) (st : St) (b : BodyM) (id : ℕ)
    (d : Draws) : St × BodyM :=
  match b.eatingStrategy with
  | .Active =>
      let (st, b) :=
        if ¬ b.status.isWalking then
          (cleanup st b.status id none,
            { b with status := .Walking (b.speed * d.walkDir.1, b.speed * d.walkDir.2) })
        else (st, b)
      let b := match b.status with
        | .Walking dev => { b with pos := (b.pos.1 + dev.1, b.pos.2 + dev.2) }
        | _ => b
      (st, { b with pos := wrap P b.pos })
  | .Passive => (cleanup st b.status id none, { b with status := .Idle })

/-- The tail of the sweep iteration shared by the consume path and the
no-food path: procreation, then walking/idling, then the write-back of the
current body. -/
noncomputable def procreateOrWalk (P : Params) (draws : ℕ → Draws) (st : St)
    (b : BodyM) (id : ℕ) : St :=
  let d := draws id
  let (nb, rm, did) := handleProcreation P b id d.childId1 d.childId2 d.child1 d.child2
    st.newBodies st.removedBodies
  let st := { st with newBodies := nb, removedBodies := rm }
  if did then { st with bodies := insertA st.bodies id b }
  else
    let (st, b) := handleWalkingIdle P st b id d
    { st with bodies := insertA st.bodies id b }

/-- One iteration of the agent sweep (main.rs lines 313-647) for the agent
`id`: infection tick, lifespan decay, death check, upkeep cost, escape,
forage (consume or pursue), procreation, walk/idle. -/
noncomputable def bodyStep (P : Params) (draws : ℕ → Draws) (st : St) (id : ℕ) : St :=
  match lookupA st.bodies id with
  | none => st
  | some b0 =>
    let b := handleViruses P b0
    let b := handleLifespan P b
    if b.energy < P.minEnergy ∨ b.age > b.lifespan then
      { st with bodies := insertA st.bodies id { b with status := .Cross }
                removedBodies := insertS st.removedBodies id }
    else
      match handleEnergy P b id st.removedBodies with
      | (b, removed, true) =>
          { st with bodies := insertA st.bodies id b, removedBodies := removed }
      | (b, removed, false) =>
      let st := { st with removedBodies := removed }
      let chasers := b.followedBy
      let chasers :=
        if Skill.PrioritizeFasterChasers ∈ b.skills ∧
            ∃ p ∈ chasers, p.2.speed > b.speed then
          filterP (fun p => p.2.speed > b.speed) chasers
        else chasers
      match minBy (fun p => vdist b.pos p.2.pos) chasers with
      | some (cid, chaser) =>
          let st := cleanup st b.status id none
          let b := { b with status := .EscapingBody cid chaser.bodyType }
          let dcb := vdist b.pos chaser.pos
          let b := { b with pos :=
            (b.pos.1 - (chaser.pos.1 - b.pos.1) * (b.speed / dcb),
             b.pos.2 - (chaser.pos.2 - b.pos.2) * (b.speed / dcb)) }
          { st with bodies := insertA st.bodies id { b with pos := wrap P b.pos } }
      | none =>
        match selectFood P b id st.bodies st.plants st.crosses
            st.removedPlants st.removedBodies with
        | some food =>
          let dfood := vdist b.pos food.pos
          if dfood ≤ b.speed then
            let b := { b with energy := b.energy + food.energy, pos := food.pos }
            let (b, st) : BodyM × St := match food.foodType with
              | .Body =>
                  (getViruses P b (food.viruses.getD (fun _ => none)),
                    { st with removedBodies := insertS st.removedBodies food.id })
              | .Cross =>
                  (getViruses P b (food.viruses.getD (fun _ => none)),
                    { st with removedCrosses := st.removedCrosses ++ [food.id] })
              | .Plant =>
                  (b, { st with removedPlants := st.removedPlants ++ [food.id] })
            procreateOrWalk P draws st b id
          else
            let st := cleanup st b.status id (some food.id)
            let st := match food.foodType with
              | .Body =>
                  { st with bodies := updateA (addFollowerB id b.snap) st.bodies food.id }
              | .Cross =>
                  { st with crosses := updateA (addFollowerC id b.snap) st.crosses food.id }
              | .Plant =>
                  { st with plants := updateA (addFollowerP id b.snap) st.plants food.id }
            let b := { b with status := .FollowingTarget food.id food.pos food.foodType }
            let b := { b with pos :=
              (b.pos.1 + (food.pos.1 - b.pos.1) * (b.speed / dfood),
               b.pos.2 + (food.pos.2 - b.pos.2) * (b.speed / dfood)) }
            { st with bodies := insertA st.bodies id b }
        | none => procreateOrWalk P draws st b id

/-- One iteration of the end-of-tick removed-body loop (main.rs lines
663-683): reference-graph cleanup for the removed body, conversion into a
corpse when (and only when) its status is `Cross`, then deletion from the
registry. -/
noncomputable def applyRemovedBody (st : St) (id : ℕ) : St :=
  match lookupA st.bodies id with
  | none => st
  | some b =>
    let st1 := cleanup st b.status id none
    match lookupA st1.bodies id with
    | none => st1
    | some b2 =>
      let st2 := match b2.status with
        | .Cross => { st1 with crosses := insertA st1.crosses id (crossNew b2) }
        | _ => st1
      { st2 with bodies := removeA st2.bodies id }

/-- The end-of-tick application of the buffered mutations (main.rs lines
649-694): remove eaten crosses, purge expired crosses, apply the
removed-body set (reference-graph cleanup, corpse creation for bodies in
`Cross` status, deletion), insert newborn bodies, remove eaten plants. -/
noncomputable def applyEnd (P : Params) (st : St) : St :=
  let st := { st with crosses := st.removedCrosses.foldl removeA st.crosses }
  let st := { st with crosses := filterP (fun q => q.2.age ≤ P.crossLifespan) st.crosses }
  let st := st.removedBodies.foldl applyRemovedBody st
  let st := { st with bodies := st.newBodies.foldl (fun bs (q : ℕ × BodyM) => insertA bs q.1 q.2) st.bodies }
  { st with plants := st.removedPlants.foldl removeA st.plants }

/-- One full simulation tick over the committed stores, with the pre-sweep
plant die-off given as `removedPlants0` and the per-body rng draws given by
`draws`. -/
noncomputable def runTick (P : Params) (draws : ℕ → Draws)
    (bodies : List (ℕ × BodyM)) (plants : List (ℕ × PlantM))
    (crosses : List (ℕ × CrossM)) (removedPlants0 : List ℕ) : St :=
  let st0 : St :=
    { bodies := bodies, plants := plants, crosses := crosses, newBodies := []
      removedBodies := [], removedPlants := removedPlants0, removedCrosses := [] }
  applyEnd P ((bodies.map Prod.fst).foldl (bodyStep P draws) st0)

/-! ## The grid and the visibility query (`get_visible`, body.rs lines 114-196)

`Cells` carries the grid geometry (cell width/height, row/column counts).
Entities of one kind are kept in per-cell bags; the store is modelled as a
function from a cell index pair to the bag's entries `(identity, position)`. -/

structure Cells where
  cellWidth : ℝ
  cellHeight : ℝ
  columns : ℕ
  rows : ℕ

/-- Modelled from the spec (src/cells.rs is not in the sources):
`get_cell_by_pos` maps a position to its owning row by flooring, clamping
out-of-range coordinates into the nearest valid row. -/
noncomputable def cellOfI (g : Cells) (y : ℝ) : ℕ :=
  min (⌊y / g.cellHeight⌋.toNat) (g.rows - 1)

/-- Modelled from the spec: the owning column of a position, clamped. -/
noncomputable def cellOfJ (g : Cells) (x : ℝ) : ℕ :=
  min (⌊x / g.cellWidth⌋.toNat) (g.columns - 1)

/-- `i_min` of `get_visible`: `((b - r) / h).floor().max(0.0) as usize`. -/
noncomputable def iMinV (g : Cells) (b r : ℝ) : ℕ :=
  (⌊(b - r) / g.cellHeight⌋).toNat

/-- `i_max` of `get_visible`: `((b + r) / h).floor().min(n - 1) as usize`
(the `as usize` cast saturates at 0). -/
noncomputable def iMaxV (g : Cells) (b r : ℝ) : ℕ :=
  (min ⌊(b + r) / g.cellHeight⌋ ((g.rows : ℤ) - 1)).toNat

/-- The half-width `delta` of the vision circle at the row edge nearest the
centre (`get_visible`, rows other than the centre row).  In Rust a negative
radicand gives NaN, which makes the row scan every column and rely on the
per-entity distance check; for rows in the iterated range the radicand is
nonnegative (lemma `radicand_nonneg` below), where both semantics agree. -/
noncomputable def rowDelta (g : Cells) (b r : ℝ) (centerI i : ℕ) : ℝ :=
  let iForLine : ℕ := if i < centerI then i + 1 else i
  r * Real.sqrt (1 - (((iForLine : ℝ) * g.cellHeight - b) / r) ^ 2)

/-- `j_min_for_i` of `get_visible`. -/
noncomputable def jMinRow (g : Cells) (a b r : ℝ) (centerI i : ℕ) : ℕ :=
  if i = centerI then (⌊(a - r) / g.cellWidth⌋).toNat
  else (⌊(a - rowDelta g b r centerI i) / g.cellWidth⌋).toNat

/-- `j_max_for_i` of `get_visible`. -/
noncomputable def jMaxRow (g : Cells) (a b r : ℝ) (centerI i : ℕ) : ℕ :=
  if i = centerI then (min ⌊(a + r) / g.cellWidth⌋ ((g.columns : ℤ) - 1)).toNat
  else (min ⌊(a + rowDelta g b r centerI i) / g.cellWidth⌋ ((g.columns : ℤ) - 1)).toNat

/-- The full-coverage test of `get_visible`: the corner of cell `(i, j)`
farthest from the circle centre (chosen by the quadrant of the cell's
centre) lies strictly inside the circle. -/
noncomputable def fullyCovered (g : Cells) (a b r : ℝ) (i j : ℕ) : Prop :=
  let iDelta : ℕ := if (i : ℝ) * g.cellHeight + g.cellHeight / 2 > b then 1 else 0
  let jDelta : ℕ := if (j : ℝ) * g.cellWidth + g.cellWidth / 2 > a then 1 else 0
  (((j + jDelta : ℕ) : ℝ) * g.cellWidth - a) ^ 2 +
      (((i + iDelta : ℕ) : ℝ) * g.cellHeight - b) ^ 2 < r ^ 2

/-- The set of entities inserted by the `get_visible` macro for a body
at `(a, b)` with vision radius `r`: the double loop over the pruned
row/column ranges, including a cell's whole bag when the cell is fully
covered and falling back to the exact distance check otherwise. -/
noncomputable def getVisible (g : Cells) (a b r : ℝ)
    (store : ℕ × ℕ → List (ℕ × (ℝ × ℝ))) : Set (ℕ × (ℝ × ℝ)) :=
  { e | ∃ i, iMinV g b r ≤ i ∧ i ≤ iMaxV g b r ∧
        ∃ j, jMinRow g a b r (cellOfI g b) i ≤ j ∧
          j ≤ jMaxRow g a b r (cellOfI g b) i ∧
          e ∈ store (i, j) ∧
          (fullyCovered g a b r i j ∨ vdist (a, b) e.2 ≤ r) }

/-! ## Concrete instances used by witnesses and counterexamples -/

/-- A default body (all numeric fields zero, passive, no skills, healthy);
concrete theorem instances override the fields they need. -/
def BodyM.base : BodyM :=
  { pos := (0, 0), energy := 0, speed := 0, visionDistance := 0
    eatingStrategy := .Passive, divisionThreshold := 0, skills := ∅
    viruses := fun _ => none, status := .Idle, bodyType := 0, lifespan := 0
    initialSpeed := 0, initialVisionDistance := 0, followedBy := [], age := 0 }

/-- The claim-side floored deduction: subtract the healing cost, floored at
0, when the affliction is present. -/
def dedOpt (e : ℝ) (o : Option ℝ) (c : ℝ) : ℝ :=
  match o with
  | some _ => max (e - c) 0
  | none => e

/-- Parameters for the C5 development: SpeedVirus healing cost 1, cure
threshold 2. -/
def P5 : Params := { Params.base with speedHealCost := 1, speedHealEnergy := 2 }

/-- A body carrying a SpeedVirus whose accumulated healing is 1 away from
the cure threshold. -/
def b5 : BodyM :=
  { BodyM.base with
    energy := 10,
    viruses := fun v => (match v with | .SpeedVirus => some 1 | .VisionVirus => none) }

/-- A pursuer holding the three travel-time skills, for the C6 witness. -/
def b6 : BodyM :=
  { BodyM.base with
    speed := 1,
    skills := {Skill.ProfitableWhenArrived, Skill.AliveWhenArrived, Skill.WillArriveFirst} }

/-- A target strictly faster than `b6`. -/
def ob6 : BodyM := { BodyM.base with speed := 2 }

/-- An agent holding only the AvoidInfectedCrosses skill, for C4. -/
def b4 : BodyM :=
  { BodyM.base with
    pos := (0, 1),
    energy := 5,
    visionDistance := 10,
    skills := {Skill.AvoidInfectedCrosses},
    bodyType := 1 }

/-- An infected corpse of another lineage within b4's vision. -/
def c4 : CrossM :=
  { pos := (3, 1)
    energy := 5
    viruses := fun v => (match v with | .SpeedVirus => some 0 | .VisionVirus => none)
    bodyType := 2
    followedBy := []
    age := 0 }

/-- Parameters for C7: SpeedVirus halves the speed; deviation 0 makes the
configured band around a baseline degenerate. -/
noncomputable def P7 : Params := { Params.base with speedDecrease := 1/2 }

/-- An infected parent above its division threshold, undamaged baseline
speed 10. -/
def b7 : BodyM :=
  { BodyM.base with
    energy := 10,
    divisionThreshold := 5,
    initialSpeed := 10,
    viruses := fun v => (match v with | .SpeedVirus => some 0 | .VisionVirus => none) }

/-- Neutral rng draws for a `Body::new` call: all deviation factors 0, no
skill mutation. -/
def d70 : NewDraws :=
  { speedU := 0, visionU := 0, energyU := 0, divisionU := 0, skillsRoll := 1
    skillsCoin := false, skillAddPick := none, skillRemovePick := none
    firstGenViruses := fun _ => none }

/-- Parameters for the C3 scenario: upkeep mass cost 1, minimum-viable
energy 1, a 100 × 100 arena. -/
def P3 : Params :=
  { Params.base with minEnergy := 1, constMass := 1, area := (100, 100), minGap := 1 }

/-- An idle agent with energy 2: it passes the death check (2 ≥ 1) but the
upkeep deduction (mass cost 1 · energy 2) drives its energy to exactly 0. -/
def b3 : BodyM := { BodyM.base with pos := (5, 5), energy := 2, lifespan := 10 }

/-- Neutral per-body draws for concrete ticks. -/
def draws0 : ℕ → Draws :=
  fun _ => { walkDir := (1, 0), child1 := d70, child2 := d70, childId1 := 100, childId2 := 101 }

/-- The C3 end-of-tick state: the upkeep-killed agent sits in the removal
set with its (unchanged, non-Cross) status. -/
def st3 : St :=
  { bodies := [(1, b3)], plants := [], crosses := [], newBodies := []
    removedBodies := [1], removedPlants := [], removedCrosses := [] }

/-- Parameters for the C2 scenario. -/
def P2 : Params :=
  { Params.base with minEnergy := 1, area := (100, 100), minGap := 1 }

/-- The pursuer's clone stored in the target's pursuer map. -/
def snapP2 : Snap := { pos := (1, 1), speed := 1, bodyType := 1 }

/-- The pursuer: following body 2, but with energy 0 it dies at this
tick's death check (which overwrites its status with `Cross`). -/
def bP2 : BodyM :=
  { BodyM.base with
    pos := (1, 1),
    energy := 0,
    speed := 1,
    status := .FollowingTarget 2 (5, 1) .Body,
    bodyType := 1,
    lifespan := 10 }

/-- The pursued target: healthy, it flees its registered chaser. -/
def bT2 : BodyM :=
  { BodyM.base with
    pos := (5, 1),
    energy := 5,
    speed := 2,
    bodyType := 2,
    lifespan := 10,
    followedBy := [(1, snapP2)] }

/-- A one-cell grid with unit cells, for the C1 witness. -/
def G1 : Cells := { cellWidth := 1, cellHeight := 1, columns := 1, rows := 1 }

/-- The single entity of the C1 witness world, at the centre of the cell. -/
noncomputable def e1 : ℕ × (ℝ × ℝ) := (0, (1/2, 1/2))

/-- The C1 witness store: the entity sits in the bag of cell (0, 0). -/
noncomputable def store1 : ℕ × ℕ → List (ℕ × (ℝ × ℝ)) :=
  fun c => if c = (0, 0) then [e1] else []

/-! # Theorems -/

theorem lookupA_insertA_self {α : Type} (l : List (ℕ × α)) (k : ℕ) (v : α) :
    lookupA (insertA l k v) k = some v := by
  induction l with
  | nil => simp [insertA, lookupA]
  | cons x l ih =>
    by_cases hx : x.1 = k
    · simp [insertA, hx, lookupA]
    · cases x
      simp_all [insertA, hx, lookupA]

theorem lookupA_insertA_ne {α : Type} (l : List (ℕ × α)) (k k2 : ℕ) (v : α)
    (h : k ≠ k2) : lookupA (insertA l k v) k2 = lookupA l k2 := by
  induction l with
  | nil => simp [insertA, lookupA, h]
  | cons x l ih =>
    by_cases hx : x.1 = k
    · cases x
      simp_all [insertA, lookupA, h]
    · cases x
      simp_all [insertA, lookupA]

theorem lookupA_removeA_self {α : Type} (l : List (ℕ × α)) (k : ℕ) :
    lookupA (removeA l k) k = none := by
  induction l with
  | nil => simp [removeA, lookupA]
  | cons x l ih =>
    by_cases hx : x.1 = k
    · cases x; simp_all [removeA]
    · cases x; simp_all [removeA, lookupA]

theorem lookupA_removeA_ne {α : Type} (l : List (ℕ × α)) (k k2 : ℕ) (h : k ≠ k2) :
    lookupA (removeA l k) k2 = lookupA l k2 := by
  induction l with
  | nil => simp [removeA]
  | cons x l ih =>
    by_cases hx : x.1 = k
    · cases x
      simp_all [removeA, lookupA]
    · cases x; simp_all [removeA, lookupA]

theorem lookupA_updateA_self {α : Type} (f : α → α) (l : List (ℕ × α)) (k : ℕ) :
    lookupA (updateA f l k) k = (lookupA l k).map f := by
  induction l with
  | nil => simp [updateA, lookupA]
  | cons x l ih =>
    by_cases hx : x.1 = k
    · cases x; simp_all [updateA, lookupA]
    · cases x; simp_all [updateA, lookupA]

theorem lookupA_updateA_ne {α : Type} (f : α → α) (l : List (ℕ × α)) (k k2 : ℕ)
    (h : k ≠ k2) : lookupA (updateA f l k) k2 = lookupA l k2 := by
  induction l with
  | nil => simp [updateA]
  | cons x l ih =>
    by_cases hx : x.1 = k
    · cases x
      simp_all [updateA, lookupA]
    · cases x; simp_all [updateA, lookupA]

theorem vdist_nonneg (p q : ℝ × ℝ) : 0 ≤ vdist p q := Real.sqrt_nonneg _

theorem dist2_nonneg (p q : ℝ × ℝ) : 0 ≤ dist2 p q := by
  have h1 : (0:ℝ) ≤ (p.1 - q.1) ^ 2 := sq_nonneg _
  have h2 : (0:ℝ) ≤ (p.2 - q.2) ^ 2 := sq_nonneg _
  unfold dist2; linarith

/-- Distance between two points on a common horizontal line. -/
theorem vdist_same_y (x₁ x₂ y : ℝ) : vdist (x₁, y) (x₂, y) = |x₁ - x₂| := by
  unfold vdist dist2
  simp [Real.sqrt_sq_eq_abs]

/-- `Real.sqrt d ≤ t` characterised without the square root (for `0 ≤ d`). -/
theorem sqrt_le_iff_sq (d t : ℝ) (hd : 0 ≤ d) :
    Real.sqrt d ≤ t ↔ 0 ≤ t ∧ d ≤ t ^ 2 := by
  constructor
  · intro h
    have h0 : 0 ≤ t := le_trans (Real.sqrt_nonneg d) h
    refine ⟨h0, ?_⟩
    have := Real.sq_sqrt hd
    calc d = Real.sqrt d ^ 2 := by rw [Real.sq_sqrt hd]
    _ ≤ t ^ 2 := by
          have := Real.sqrt_nonneg d
          nlinarith
  · rintro ⟨h0, h⟩
    calc Real.sqrt d ≤ Real.sqrt (t ^ 2) := Real.sqrt_le_sqrt h
    _ = t := by rw [Real.sqrt_sq h0]

theorem mem_filterP {α : Type} (p : α → Prop) (l : List α) (a : α) :
    a ∈ filterP p l ↔ a ∈ l ∧ p a := by
  induction l with
  | nil => simp [filterP]
  | cons x l ih =>
    by_cases hx : p x
    · simp only [filterP, if_pos hx, List.mem_cons, ih]
      constructor
      · rintro (rfl | ⟨h1, h2⟩)
        · exact ⟨Or.inl rfl, hx⟩
        · exact ⟨Or.inr h1, h2⟩
      · rintro ⟨rfl | h1, h2⟩
        · exact Or.inl rfl
        · exact Or.inr ⟨h1, h2⟩
    · simp only [filterP, if_neg hx, List.mem_cons, ih]
      constructor
      · rintro ⟨h1, h2⟩; exact ⟨Or.inr h1, h2⟩
      · rintro ⟨rfl | h1, h2⟩
        · exact absurd h2 hx
        · exact ⟨h1, h2⟩

theorem filterP_eq_nil {α : Type} (p : α → Prop) (l : List α) :
    filterP p l = [] ↔ ∀ a ∈ l, ¬ p a := by
  induction l with
  | nil => simp [filterP]
  | cons x l ih =>
    by_cases hx : p x
    · simp [filterP, if_pos hx, hx]
    · simp [filterP, if_neg hx, ih, hx]

theorem minBy_fold_spec {α : Type} (f : α → ℝ) (l : List α) :
    ∀ (acc : Option α) (b : α), l.foldl (minStep f) acc = some b →
      (b ∈ l ∨ acc = some b) ∧ (∀ y ∈ l, f b ≤ f y) ∧
        (∀ a, acc = some a → f b ≤ f a) := by
  induction l with
  | nil =>
    intro acc b h
    simp only [List.foldl_nil] at h
    exact ⟨Or.inr h, by simp, fun a ha => by rw [ha] at h; simp at h; rw [h]⟩
  | cons x l ih =>
    intro acc b h
    simp only [List.foldl_cons] at h
    cases acc with
    | none =>
      simp only [minStep] at h
      rcases ih (some x) b h with ⟨h1, h2, h3⟩
      have hbx : f b ≤ f x := h3 x rfl
      refine ⟨?_, ?_, by simp⟩
      · rcases h1 with h1 | h1
        · exact Or.inl (List.mem_cons_of_mem _ h1)
        · simp at h1; exact Or.inl (by simp [h1])
      · intro y hy
        rcases List.mem_cons.mp hy with rfl | hy
        · exact hbx
        · exact h2 _ hy
    | some a =>
      simp only [minStep] at h
      by_cases hx : f x < f a
      · rw [if_pos hx] at h
        rcases ih (some x) b h with ⟨h1, h2, h3⟩
        have hbx : f b ≤ f x := h3 x rfl
        refine ⟨?_, ?_, ?_⟩
        · rcases h1 with h1 | h1
          · exact Or.inl (List.mem_cons_of_mem _ h1)
          · simp at h1; exact Or.inl (by simp [h1])
        · intro y hy
          rcases List.mem_cons.mp hy with rfl | hy
          · exact hbx
          · exact h2 _ hy
        · intro c hc
          simp at hc
          rw [← hc]
          exact le_trans hbx (le_of_lt hx)
      · rw [if_neg hx] at h
        rcases ih (some a) b h with ⟨h1, h2, h3⟩
        have hba : f b ≤ f a := h3 a rfl
        refine ⟨?_, ?_, ?_⟩
        · rcases h1 with h1 | h1
          · exact Or.inl (List.mem_cons_of_mem _ h1)
          · exact Or.inr h1
        · intro y hy
          rcases List.mem_cons.mp hy with rfl | hy
          · exact le_trans hba (not_lt.mp hx)
          · exact h2 _ hy
        · intro c hc
          simp at hc
          rw [← hc]
          exact hba

theorem minBy_mem {α : Type} (f : α → ℝ) (l : List α) (b : α)
    (h : minBy f l = some b) : b ∈ l := by
  rcases (minBy_fold_spec f l none b h).1 with h1 | h1
  · exact h1
  · simp at h1

theorem minBy_le {α : Type} (f : α → ℝ) (l : List α) (b : α)
    (h : minBy f l = some b) : ∀ y ∈ l, f b ≤ f y :=
  (minBy_fold_spec f l none b h).2.1

theorem minBy_fold_isSome {α : Type} (f : α → ℝ) (l : List α) :
    ∀ (a : α), (l.foldl (minStep f) (some a)).isSome := by
  induction l with
  | nil => intro a; simp
  | cons x l ih =>
    intro a
    simp only [List.foldl_cons, minStep]
    by_cases hx : f x < f a
    · rw [if_pos hx]; exact ih x
    · rw [if_neg hx]; exact ih a

theorem minBy_eq_none {α : Type} (f : α → ℝ) (l : List α) :
    minBy f l = none ↔ l = [] := by
  cases l with
  | nil => simp [minBy]
  | cons x l =>
    simp only [minBy, List.foldl_cons, minStep]
    constructor
    · intro h
      have := minBy_fold_isSome f l x
      rw [h] at this
      simp at this
    · intro h; cases h

/-- **C9.** Implicit claim: given `0 < MIN_GAP` smaller than each arena
dimension, `wrap` always lands strictly inside the arena
(`0 < x < area.x`, `0 < y < area.y`); a coordinate at or beyond an edge is
reset to the fixed offset `MIN_GAP` inside the opposite edge, discarding
the overshoot; hence any movement step followed by `wrap` leaves the
agent strictly inside the arena. -/
theorem C9_wrap_strictly_inside (P : Params) (pos : ℝ × ℝ)
    (hg : 0 < P.minGap) (hx : P.minGap < P.area.1) (hy : P.minGap < P.area.2) :
    (0 < (wrap P pos).1 ∧ (wrap P pos).1 < P.area.1 ∧
     0 < (wrap P pos).2 ∧ (wrap P pos).2 < P.area.2) ∧
    (pos.1 ≥ P.area.1 → (wrap P pos).1 = P.minGap) ∧
    (pos.1 ≤ 0 → (wrap P pos).1 = P.area.1 - P.minGap) ∧
    (0 < pos.1 → pos.1 < P.area.1 → (wrap P pos).1 = pos.1) ∧
    (pos.2 ≥ P.area.2 → (wrap P pos).2 = P.minGap) ∧
    (pos.2 ≤ 0 → (wrap P pos).2 = P.area.2 - P.minGap) ∧
    (0 < pos.2 → pos.2 < P.area.2 → (wrap P pos).2 = pos.2) := by
  unfold wrap
  rcases le_or_lt P.area.1 pos.1 with h1 | h1
  · rcases le_or_lt P.area.2 pos.2 with h2 | h2
    · refine ⟨⟨?_, ?_, ?_, ?_⟩, ?_, ?_, ?_, ?_, ?_, ?_⟩ <;>
        simp [if_pos (ge_iff_le.mpr h1), if_pos (ge_iff_le.mpr h2)] <;> intros <;> linarith
    · rcases le_or_lt pos.2 0 with h3 | h3
      · refine ⟨⟨?_, ?_, ?_, ?_⟩, ?_, ?_, ?_, ?_, ?_, ?_⟩ <;>
          simp [if_pos (ge_iff_le.mpr h1), if_neg (not_le.mpr h2), if_pos h3] <;>
          intros <;> linarith
      · refine ⟨⟨?_, ?_, ?_, ?_⟩, ?_, ?_, ?_, ?_, ?_, ?_⟩ <;>
          simp [if_pos (ge_iff_le.mpr h1), if_neg (not_le.mpr h2),
            if_neg (not_le.mpr h3)] <;> intros <;> linarith
  · rcases le_or_lt pos.1 0 with h4 | h4
    · rcases le_or_lt P.area.2 pos.2 with h2 | h2
      · refine ⟨⟨?_, ?_, ?_, ?_⟩, ?_, ?_, ?_, ?_, ?_, ?_⟩ <;>
          simp [if_neg (not_le.mpr h1), if_pos h4, if_pos (ge_iff_le.mpr h2)] <;>
          intros <;> linarith
      · rcases le_or_lt pos.2 0 with h3 | h3
        · refine ⟨⟨?_, ?_, ?_, ?_⟩, ?_, ?_, ?_, ?_, ?_, ?_⟩ <;>
            simp [if_neg (not_le.mpr h1), if_pos h4, if_neg (not_le.mpr h2),
              if_pos h3] <;> intros <;> linarith
        · refine ⟨⟨?_, ?_, ?_, ?_⟩, ?_, ?_, ?_, ?_, ?_, ?_⟩ <;>
            simp [if_neg (not_le.mpr h1), if_pos h4, if_neg (not_le.mpr h2),
              if_neg (not_le.mpr h3)] <;> intros <;> linarith
    · rcases le_or_lt P.area.2 pos.2 with h2 | h2
      · refine ⟨⟨?_, ?_, ?_, ?_⟩, ?_, ?_, ?_, ?_, ?_, ?_⟩ <;>
          simp [if_neg (not_le.mpr h1), if_neg (not_le.mpr h4),
            if_pos (ge_iff_le.mpr h2)] <;> intros <;> linarith
      · rcases le_or_lt pos.2 0 with h3 | h3
        · refine ⟨⟨?_, ?_, ?_, ?_⟩, ?_, ?_, ?_, ?_, ?_, ?_⟩ <;>
            simp [if_neg (not_le.mpr h1), if_neg (not_le.mpr h4),
              if_neg (not_le.mpr h2), if_pos h3] <;> intros <;> linarith
        · refine ⟨⟨?_, ?_, ?_, ?_⟩, ?_, ?_, ?_, ?_, ?_, ?_⟩ <;>
            simp [if_neg (not_le.mpr h1), if_neg (not_le.mpr h4),
              if_neg (not_le.mpr h2), if_neg (not_le.mpr h3)] <;>
            intros <;> linarith

/-- Witness for C9 at a concrete input: position (12, -3) overshooting the
right and top edges of a 10 × 10 arena with `MIN_GAP = 1`. -/
theorem C9_wrap_strictly_inside_witness :
    (0 < P9.minGap ∧ P9.minGap < P9.area.1 ∧ P9.minGap < P9.area.2) ∧
    (0 < (wrap P9 ((12:ℝ), (-3:ℝ))).1 ∧ (wrap P9 ((12:ℝ), (-3:ℝ))).1 < P9.area.1 ∧
     0 < (wrap P9 ((12:ℝ), (-3:ℝ))).2 ∧ (wrap P9 ((12:ℝ), (-3:ℝ))).2 < P9.area.2) :=
  ⟨⟨by norm_num [P9, Params.base], by norm_num [P9, Params.base],
    by norm_num [P9, Params.base]⟩,
   (C9_wrap_strictly_inside P9 ((12:ℝ), (-3:ℝ)) (by norm_num [P9, Params.base])
      (by norm_num [P9, Params.base]) (by norm_num [P9, Params.base])).1⟩

/-- **C10.** Implicit claim: on consuming an infected entity, `get_viruses`
inserts only the viruses the agent does not already carry, each with
healing progress initialised to 0, and applies the stat penalty only for
those newly gained viruses; a virus already carried keeps its accumulated
healing progress, and the agent's speed and vision are unchanged unless the
corresponding virus is newly gained (re-infection is a no-op). -/
theorem C10_get_viruses_only_new (P : Params) (b : BodyM) (vs : Virus → Option ℝ) :
    (∀ v, b.viruses v = none → (vs v).isSome →
      (getViruses P b vs).viruses v = some 0) ∧
    (∀ v, (b.viruses v).isSome → (getViruses P b vs).viruses v = b.viruses v) ∧
    (∀ v, b.viruses v = none → vs v = none → (getViruses P b vs).viruses v = none) ∧
    ((getViruses P b vs).speed =
      if b.viruses Virus.SpeedVirus = none ∧ (vs Virus.SpeedVirus).isSome then
        b.speed - b.speed * P.speedDecrease
      else b.speed) ∧
    ((getViruses P b vs).visionDistance =
      if b.viruses Virus.VisionVirus = none ∧ (vs Virus.VisionVirus).isSome then
        b.visionDistance - b.visionDistance * P.visionDecrease
      else b.visionDistance) ∧
    (getViruses P b vs).pos = b.pos ∧
    (getViruses P b vs).energy = b.energy ∧
    (getViruses P b vs).status = b.status := by
  rcases hS : vs Virus.SpeedVirus with _ | cS <;>
    rcases hbS : b.viruses Virus.SpeedVirus with _ | cbS <;>
      rcases hV : vs Virus.VisionVirus with _ | cV <;>
        rcases hbV : b.viruses Virus.VisionVirus with _ | cbV <;>
  · refine ⟨?_, ?_, ?_, ?_, ?_, ?_, ?_, ?_⟩ <;>
      first
      | (intro v hv1 hv2; cases v <;>
          simp_all [getViruses, applyVirus])
      | (intro v hv1; cases v <;>
          simp_all [getViruses, applyVirus])
      | simp_all [getViruses, applyVirus]

theorem handleViruses_viruses (P : Params) (b : BodyM) (v : Virus) :
    (handleViruses P b).viruses v =
      match b.viruses v with
      | none => none
      | some cnt =>
          if cnt + virusCost P v ≤ virusHeal P v then some (cnt + virusCost P v)
          else none := by
  rcases hbS : b.viruses Virus.SpeedVirus with _ | cS <;>
    rcases hbV : b.viruses Virus.VisionVirus with _ | cV <;>
      cases v <;>
        simp [handleViruses, hbS, hbV, virusCost, virusHeal]

theorem handleViruses_energy (P : Params) (b : BodyM) :
    (handleViruses P b).energy =
      dedOpt (dedOpt b.energy (b.viruses Virus.SpeedVirus) P.speedHealCost)
        (b.viruses Virus.VisionVirus) P.visionHealCost := by
  rcases hbS : b.viruses Virus.SpeedVirus with _ | cS <;>
    rcases hbV : b.viruses Virus.VisionVirus with _ | cV <;>
      simp [handleViruses, dedOpt, hbS, hbV, virusCost]

theorem virusCost_nonneg (P : Params) (hS : 0 ≤ P.speedHealCost)
    (hV : 0 ≤ P.visionHealCost) (v : Virus) : 0 ≤ virusCost P v := by
  cases v <;> simpa [virusCost]

/-- **C5** (amended).  One infection tick deducts each active affliction's
fixed healing cost from the agent's energy floored at 0, adds that same
cost to the affliction's accumulated-healing counter (so the counter is
non-decreasing while the affliction is active, the costs being
nonnegative), and the affliction is removed exactly once the counter
strictly exceeds its cure threshold (at exactly the threshold it is kept
for one more tick). -/
theorem C5_infection_tick (P : Params) (b : BodyM)
    (hS : 0 ≤ P.speedHealCost) (hV : 0 ≤ P.visionHealCost) :
    (∀ v cnt, b.viruses v = some cnt →
      (cnt + virusCost P v ≤ virusHeal P v →
        (handleViruses P b).viruses v = some (cnt + virusCost P v)) ∧
      (virusHeal P v < cnt + virusCost P v →
        (handleViruses P b).viruses v = none)) ∧
    (∀ v, b.viruses v = none → (handleViruses P b).viruses v = none) ∧
    (∀ v cnt cnt2, b.viruses v = some cnt →
      (handleViruses P b).viruses v = some cnt2 → cnt ≤ cnt2) ∧
    (handleViruses P b).energy =
      dedOpt (dedOpt b.energy (b.viruses Virus.SpeedVirus) P.speedHealCost)
        (b.viruses Virus.VisionVirus) P.visionHealCost := by
  refine ⟨?_, ?_, ?_, handleViruses_energy P b⟩
  · intro v cnt hv
    rw [handleViruses_viruses, hv]
    constructor
    · intro hcmp
      simp [if_pos hcmp]
    · intro hcmp
      simp [if_neg (not_le.mpr hcmp)]
  · intro v hv
    rw [handleViruses_viruses, hv]
  · intro v cnt cnt2 hv h2
    simp only [handleViruses_viruses, hv] at h2
    by_cases hcmp : cnt + virusCost P v ≤ virusHeal P v
    · rw [if_pos hcmp] at h2
      simp at h2
      have := virusCost_nonneg P hS hV v
      linarith [h2]
    · rw [if_neg hcmp] at h2
      simp at h2

/-- Witness for C5 at a concrete input: cost 1, threshold 2, counter 1;
the tick takes the counter to 2 and keeps the affliction. -/
theorem C5_infection_tick_witness :
    ((0:ℝ) ≤ P5.speedHealCost ∧ (0:ℝ) ≤ P5.visionHealCost) ∧
    (handleViruses P5 b5).viruses Virus.SpeedVirus = some (1 + virusCost P5 Virus.SpeedVirus) :=
  ⟨⟨by norm_num [P5, Params.base], by norm_num [P5, Params.base]⟩,
    ((C5_infection_tick P5 b5 (by norm_num [P5, Params.base])
        (by norm_num [P5, Params.base])).1 Virus.SpeedVirus 1 (by simp [b5, BodyM.base])).1
      (by norm_num [P5, Params.base, virusCost, virusHeal])⟩

/-- Counterexample for **C5** as stated: the claim says the affliction is
removed exactly once its counter reaches the cure threshold, but when the
counter lands exactly on the threshold (here 1 + 1 = 2 = threshold) the
code keeps the affliction (removal requires strictly exceeding it). -/
theorem C5_counterexample :
    (handleViruses P5 b5).viruses Virus.SpeedVirus = some 2 ∧
    virusHeal P5 Virus.SpeedVirus ≤ 2 := by
  constructor
  · rw [handleViruses_viruses]
    norm_num [P5, Params.base, b5, BodyM.base, virusCost, virusHeal]
  · norm_num [P5, Params.base, virusHeal]

/-- **C6.** For each pursuit predicate evaluated against another live agent
(`handle_alive_when_arrived_body`, `handle_profitable_when_arrived_body`,
`handle_will_arrive_first_body`), when the corresponding skill is held and
the pursuer's speed is not strictly greater than the target's, the
predicate fails closed: it returns false via the early `divisor <= 0.0`
test, before the travel time (the division by the relative speed) is ever
formed. -/
theorem C6_pursuit_speed_fails_closed (P : Params) (b other : BodyM) (id : ℕ)
    (hspeed : b.speed ≤ other.speed) :
    (Skill.ProfitableWhenArrived ∈ b.skills →
      ¬ handleProfitableWhenArrivedBody P b other) ∧
    (Skill.AliveWhenArrived ∈ b.skills → ¬ handleAliveWhenArrivedBody P b other) ∧
    (Skill.WillArriveFirst ∈ b.skills → ¬ handleWillArriveFirstBody b id other) := by
  have hdiv : b.speed - other.speed ≤ 0 := by linarith
  refine ⟨fun hsk => ?_, fun hsk => ?_, fun hsk => ?_⟩
  · simp only [handleProfitableWhenArrivedBody, if_pos hsk, if_pos hdiv]
    exact not_false
  · simp only [handleAliveWhenArrivedBody, if_pos hsk, if_pos hdiv]
    exact not_false
  · simp only [handleWillArriveFirstBody, if_pos hsk, if_pos hdiv]
    exact not_false

/-- Witness for C6 at a concrete input: a pursuer of speed 1 holding all
three skills against a target of speed 2. -/
theorem C6_pursuit_speed_fails_closed_witness :
    (b6.speed ≤ ob6.speed ∧ Skill.ProfitableWhenArrived ∈ b6.skills ∧
      Skill.AliveWhenArrived ∈ b6.skills ∧ Skill.WillArriveFirst ∈ b6.skills) ∧
    (¬ handleProfitableWhenArrivedBody Params.base b6 ob6 ∧
      ¬ handleAliveWhenArrivedBody Params.base b6 ob6 ∧
      ¬ handleWillArriveFirstBody b6 0 ob6) :=
  ⟨⟨by norm_num [b6, ob6, BodyM.base], by decide, by decide, by decide⟩,
    ⟨(C6_pursuit_speed_fails_closed Params.base b6 ob6 0
        (by norm_num [b6, ob6, BodyM.base])).1 (by decide),
      (C6_pursuit_speed_fails_closed Params.base b6 ob6 0
        (by norm_num [b6, ob6, BodyM.base])).2.1 (by decide),
      (C6_pursuit_speed_fails_closed Params.base b6 ob6 0
        (by norm_num [b6, ob6, BodyM.base])).2.2 (by decide)⟩⟩

/-- **C4** (amended).  The `AvoidInfectedCrosses` skill is declared but
never wired into the forage pipeline: the cross filter tests only the six
implemented predicates, so a corpse carrying infections that passes them
remains a candidate even for an agent holding the skill. -/
theorem C4_infected_crosses_not_excluded (P : Params) (b : BodyM) (id cid : ℕ)
    (c : CrossM) (crosses : List (ℕ × CrossM))
    (hsk : Skill.AvoidInfectedCrosses ∈ b.skills)
    (hinf : ∃ v, (c.viruses v).isSome)
    (hmem : (cid, c) ∈ crosses)
    (hvis : vdist b.pos c.pos ≤ b.visionDistance)
    (hpred : crossPred P b id c) :
    (cid, c) ∈ crossCandidates P b id crosses := by
  unfold crossCandidates
  rw [mem_filterP]
  refine ⟨?_, hpred⟩
  rw [mem_filterP]
  exact ⟨hmem, hvis⟩

/-- Counterexample for **C4** as stated: an agent holding
`AvoidInfectedCrosses` selects an infected corpse as its forage target
(the corpse passes the six implemented predicates and is the only visible
candidate), contradicting the claimed exclusion. -/
theorem C4_counterexample :
    selectFood Params.base b4 1 [] [] [(7, c4)] [] [] =
      some ⟨7, ObjectType.Cross, (3, 1), 5, some c4.viruses⟩ ∧
    Skill.AvoidInfectedCrosses ∈ b4.skills ∧
    (c4.viruses Virus.SpeedVirus).isSome := by
  have hb4pos : b4.pos = ((0 : ℝ), (1 : ℝ)) := rfl
  have hc4pos : c4.pos = ((3 : ℝ), (1 : ℝ)) := rfl
  have hvis : vdist b4.pos c4.pos ≤ b4.visionDistance := by
    rw [hb4pos, hc4pos, vdist_same_y]
    norm_num [b4, BodyM.base]
  have hpred : crossPred Params.base b4 1 c4 := by
    refine ⟨Or.inl (by norm_num [b4, c4, BodyM.base]), ?_, ?_, ?_, ?_, ?_⟩
    · simp only [handleAliveWhenArrivedCross, if_neg (by decide :
        ¬ Skill.AliveWhenArrived ∈ b4.skills)]
    · simp only [handleProfitableWhenArrivedCross, if_neg (by decide :
        ¬ Skill.ProfitableWhenArrived ∈ b4.skills)]
    · simp only [handleAvoidNewVirusesCross, if_neg (by decide :
        ¬ Skill.AvoidNewViruses ∈ b4.skills)]
    · simp only [handleWillArriveFirstCross, if_neg (by decide :
        ¬ Skill.WillArriveFirst ∈ b4.skills)]
    · simp only [handleDoNotCompeteWithRelatives, if_neg (by decide :
        ¬ Skill.DoNotCompeteWithRelatives ∈ b4.skills)]
  have hcands : crossCandidates Params.base b4 1 [(7, c4)] = [(7, c4)] := by
    unfold crossCandidates
    rw [show filterP (fun q => vdist b4.pos q.2.pos ≤ b4.visionDistance)
        [(7, c4)] = [(7, c4)] by
      simp only [filterP]
      rw [if_pos hvis]]
    simp only [filterP]
    rw [if_pos hpred]
  refine ⟨?_, by decide, by decide⟩
  simp only [selectFood, hcands, minBy, List.foldl_cons, List.foldl_nil, minStep]
  rfl

/-- Witness for C4 at the concrete world of an infected corpse visible to a
skill-holding agent. -/
theorem C4_infected_crosses_not_excluded_witness :
    (Skill.AvoidInfectedCrosses ∈ b4.skills ∧ (c4.viruses Virus.SpeedVirus).isSome ∧
      (7, c4) ∈ [(7, c4)] ∧ vdist b4.pos c4.pos ≤ b4.visionDistance ∧
      crossPred Params.base b4 1 c4) ∧
    (7, c4) ∈ crossCandidates Params.base b4 1 [(7, c4)] := by
  have hvis : vdist b4.pos c4.pos ≤ b4.visionDistance := by
    rw [show b4.pos = ((0 : ℝ), (1 : ℝ)) from rfl,
      show c4.pos = ((3 : ℝ), (1 : ℝ)) from rfl, vdist_same_y]
    norm_num [b4, BodyM.base]
  have hpred : crossPred Params.base b4 1 c4 := by
    refine ⟨Or.inl (by norm_num [b4, c4, BodyM.base]), ?_, ?_, ?_, ?_, ?_⟩
    · simp only [handleAliveWhenArrivedCross, if_neg (by decide :
        ¬ Skill.AliveWhenArrived ∈ b4.skills)]
    · simp only [handleProfitableWhenArrivedCross, if_neg (by decide :
        ¬ Skill.ProfitableWhenArrived ∈ b4.skills)]
    · simp only [handleAvoidNewVirusesCross, if_neg (by decide :
        ¬ Skill.AvoidNewViruses ∈ b4.skills)]
    · simp only [handleWillArriveFirstCross, if_neg (by decide :
        ¬ Skill.WillArriveFirst ∈ b4.skills)]
    · simp only [handleDoNotCompeteWithRelatives, if_neg (by decide :
        ¬ Skill.DoNotCompeteWithRelatives ∈ b4.skills)]
  exact ⟨⟨by decide, by decide, by simp, hvis, hpred⟩,
    C4_infected_crosses_not_excluded Params.base b4 1 7 c4 [(7, c4)] (by decide)
      ⟨Virus.SpeedVirus, by decide⟩ (by simp) hvis hpred⟩

theorem getWithDeviation_band (x u dev : ℝ) (hx : 0 ≤ x) (hu : |u| ≤ dev) :
    x * (1 - dev) ≤ getWithDeviation x u ∧ getWithDeviation x u ≤ x * (1 + dev) := by
  rcases abs_le.mp hu with ⟨h1, h2⟩
  unfold getWithDeviation
  constructor <;> nlinarith

theorem bodyNew_offspring (P : Params) (b : BodyM) (d : NewDraws) :
    (bodyNew P b.pos (some b.energy) b.eatingStrategy (some b.divisionThreshold)
        (some b.skills) b.bodyType (some b.viruses) (some b.initialSpeed)
        (some b.initialVisionDistance) d).energy = b.energy / 2 ∧
    (bodyNew P b.pos (some b.energy) b.eatingStrategy (some b.divisionThreshold)
        (some b.skills) b.bodyType (some b.viruses) (some b.initialSpeed)
        (some b.initialVisionDistance) d).initialSpeed =
      getWithDeviation b.initialSpeed d.speedU ∧
    (bodyNew P b.pos (some b.energy) b.eatingStrategy (some b.divisionThreshold)
        (some b.skills) b.bodyType (some b.viruses) (some b.initialSpeed)
        (some b.initialVisionDistance) d).initialVisionDistance =
      getWithDeviation b.initialVisionDistance d.visionU ∧
    (bodyNew P b.pos (some b.energy) b.eatingStrategy (some b.divisionThreshold)
        (some b.skills) b.bodyType (some b.viruses) (some b.initialSpeed)
        (some b.initialVisionDistance) d).viruses = b.viruses ∧
    (bodyNew P b.pos (some b.energy) b.eatingStrategy (some b.divisionThreshold)
        (some b.skills) b.bodyType (some b.viruses) (some b.initialSpeed)
        (some b.initialVisionDistance) d).bodyType = b.bodyType ∧
    (bodyNew P b.pos (some b.energy) b.eatingStrategy (some b.divisionThreshold)
        (some b.skills) b.bodyType (some b.viruses) (some b.initialSpeed)
        (some b.initialVisionDistance) d).speed =
      (if (b.viruses Virus.SpeedVirus).isSome then
        getWithDeviation b.initialSpeed d.speedU -
          getWithDeviation b.initialSpeed d.speedU * P.speedDecrease
      else getWithDeviation b.initialSpeed d.speedU) ∧
    (bodyNew P b.pos (some b.energy) b.eatingStrategy (some b.divisionThreshold)
        (some b.skills) b.bodyType (some b.viruses) (some b.initialSpeed)
        (some b.initialVisionDistance) d).visionDistance =
      (if (b.viruses Virus.VisionVirus).isSome then
        getWithDeviation b.initialVisionDistance d.visionU -
          getWithDeviation b.initialVisionDistance d.visionU * P.visionDecrease
      else getWithDeviation b.initialVisionDistance d.visionU) := by
  rcases hbS : b.viruses Virus.SpeedVirus with _ | cS <;>
    rcases hbV : b.viruses Virus.VisionVirus with _ | cV <;>
      simp [bodyNew, applyAllViruses, applyVirus, hbS, hbV]

/-- **C7** (amended).  When an agent's energy exceeds its division
threshold, procreation creates exactly two offspring under fresh
identities, each receiving exactly half the parent's pre-split energy (so
the two energies sum to the parent's); each offspring's speed and vision
are re-rolled around the parent's original undamaged baselines
(`initial_speed`, `initial_vision_distance`), and the ROLLED values,
recorded as the offspring's own baselines, fall within the configured
deviation band of the parent's undamaged baseline; the offspring's current
speed and vision equal that roll reduced by the permanent penalty of each
virus inherited from the parent, and so can fall below the band for an
infected parent; the parent is marked for removal. -/
theorem C7_procreation_split (P : Params) (b : BodyM) (id cid1 cid2 : ℕ)
    (d1 d2 : NewDraws) (newBodies : List (ℕ × BodyM)) (removed : List ℕ)
    (hthr : b.energy > b.divisionThreshold)
    (hcid : cid1 ≠ cid2)
    (hu1 : |d1.speedU| ≤ P.deviation) (hu2 : |d2.speedU| ≤ P.deviation)
    (hw1 : |d1.visionU| ≤ P.deviation) (hw2 : |d2.visionU| ≤ P.deviation)
    (hs0 : 0 ≤ b.initialSpeed) (hv0 : 0 ≤ b.initialVisionDistance) :
    (handleProcreation P b id cid1 cid2 d1 d2 newBodies removed).2.2 = true ∧
    id ∈ (handleProcreation P b id cid1 cid2 d1 d2 newBodies removed).2.1 ∧
    ∃ c1 c2,
      lookupA (handleProcreation P b id cid1 cid2 d1 d2 newBodies removed).1 cid1 =
        some c1 ∧
      lookupA (handleProcreation P b id cid1 cid2 d1 d2 newBodies removed).1 cid2 =
        some c2 ∧
      c1.energy = b.energy / 2 ∧ c2.energy = b.energy / 2 ∧
      c1.energy + c2.energy = b.energy ∧
      (b.initialSpeed * (1 - P.deviation) ≤ c1.initialSpeed ∧
        c1.initialSpeed ≤ b.initialSpeed * (1 + P.deviation)) ∧
      (b.initialSpeed * (1 - P.deviation) ≤ c2.initialSpeed ∧
        c2.initialSpeed ≤ b.initialSpeed * (1 + P.deviation)) ∧
      (b.initialVisionDistance * (1 - P.deviation) ≤ c1.initialVisionDistance ∧
        c1.initialVisionDistance ≤ b.initialVisionDistance * (1 + P.deviation)) ∧
      (b.initialVisionDistance * (1 - P.deviation) ≤ c2.initialVisionDistance ∧
        c2.initialVisionDistance ≤ b.initialVisionDistance * (1 + P.deviation)) ∧
      (c1.speed = if (b.viruses Virus.SpeedVirus).isSome then
          c1.initialSpeed - c1.initialSpeed * P.speedDecrease else c1.initialSpeed) ∧
      (c2.speed = if (b.viruses Virus.SpeedVirus).isSome then
          c2.initialSpeed - c2.initialSpeed * P.speedDecrease else c2.initialSpeed) ∧
      c1.viruses = b.viruses ∧ c2.viruses = b.viruses ∧
      c1.bodyType = b.bodyType ∧ c2.bodyType = b.bodyType := by
  unfold handleProcreation
  rw [if_pos hthr]
  simp only
  refine ⟨trivial, by unfold insertS; split <;> simp_all, ?_⟩
  set c1 := bodyNew P b.pos (some b.energy) b.eatingStrategy (some b.divisionThreshold)
    (some b.skills) b.bodyType (some b.viruses) (some b.initialSpeed)
    (some b.initialVisionDistance) d1 with hc1
  set c2 := bodyNew P b.pos (some b.energy) b.eatingStrategy (some b.divisionThreshold)
    (some b.skills) b.bodyType (some b.viruses) (some b.initialSpeed)
    (some b.initialVisionDistance) d2 with hc2
  obtain ⟨e1, is1, iv1, vr1, bt1, sp1, vd1⟩ := bodyNew_offspring P b d1
  obtain ⟨e2, is2, iv2, vr2, bt2, sp2, vd2⟩ := bodyNew_offspring P b d2
  rw [← hc1] at e1 is1 iv1 vr1 bt1 sp1 vd1
  rw [← hc2] at e2 is2 iv2 vr2 bt2 sp2 vd2
  refine ⟨c1, c2, ?_, lookupA_insertA_self _ _ _, e1, e2, by rw [e1, e2]; ring,
    ?_, ?_, ?_, ?_, ?_, ?_, vr1, vr2, bt1, bt2⟩
  · rw [lookupA_insertA_ne _ _ _ _ (Ne.symm hcid)]
    exact lookupA_insertA_self _ _ _
  · rw [is1]
    exact ⟨(getWithDeviation_band _ _ _ hs0 hu1).1, (getWithDeviation_band _ _ _ hs0 hu1).2⟩
  · rw [is2]
    exact ⟨(getWithDeviation_band _ _ _ hs0 hu2).1, (getWithDeviation_band _ _ _ hs0 hu2).2⟩
  · rw [iv1]
    exact ⟨(getWithDeviation_band _ _ _ hv0 hw1).1, (getWithDeviation_band _ _ _ hv0 hw1).2⟩
  · rw [iv2]
    exact ⟨(getWithDeviation_band _ _ _ hv0 hw2).1, (getWithDeviation_band _ _ _ hv0 hw2).2⟩
  · rw [sp1, is1]
  · rw [sp2, is2]

/-- Witness for C7 at a concrete input: parent of energy 10 over threshold
5, neutral draws. -/
theorem C7_procreation_split_witness :
    (b7.energy > b7.divisionThreshold ∧ (2:ℕ) ≠ 3 ∧ |d70.speedU| ≤ P7.deviation ∧
      |d70.visionU| ≤ P7.deviation ∧ 0 ≤ b7.initialSpeed ∧
      0 ≤ b7.initialVisionDistance) ∧
    ((handleProcreation P7 b7 1 2 3 d70 d70 [] []).2.2 = true ∧
      1 ∈ (handleProcreation P7 b7 1 2 3 d70 d70 [] []).2.1) :=
  ⟨⟨by norm_num [b7, BodyM.base], by norm_num, by simp [d70, P7, Params.base],
    by simp [d70, P7, Params.base], by norm_num [b7, BodyM.base],
    by norm_num [b7, BodyM.base]⟩,
   ⟨(C7_procreation_split P7 b7 1 2 3 d70 d70 [] [] (by norm_num [b7, BodyM.base])
      (by norm_num) (by simp [d70, P7, Params.base]) (by simp [d70, P7, Params.base])
      (by simp [d70, P7, Params.base]) (by simp [d70, P7, Params.base])
      (by norm_num [b7, BodyM.base]) (by norm_num [b7, BodyM.base])).1,
    (C7_procreation_split P7 b7 1 2 3 d70 d70 [] [] (by norm_num [b7, BodyM.base])
      (by norm_num) (by simp [d70, P7, Params.base]) (by simp [d70, P7, Params.base])
      (by simp [d70, P7, Params.base]) (by simp [d70, P7, Params.base])
      (by norm_num [b7, BodyM.base]) (by norm_num [b7, BodyM.base])).2.1⟩⟩

/-- Counterexample for **C7** as stated: the parent carries a SpeedVirus;
the offspring's rolled speed (the undamaged baseline, rolled with zero
deviation) is immediately reduced by the inherited virus's permanent
penalty inside `Body::new`, so the offspring's speed (5) falls strictly
below the configured deviation band around the parent's undamaged baseline
(the degenerate band around 10), contradicting the claim that the
offspring's speed falls within the band. -/
theorem C7_counterexample :
    b7.energy > b7.divisionThreshold ∧ |d70.speedU| ≤ P7.deviation ∧
    (∃ c, lookupA (handleProcreation P7 b7 1 2 3 d70 d70 [] []).1 2 = some c ∧
      c.speed < b7.initialSpeed * (1 - P7.deviation)) := by
  refine ⟨by norm_num [b7, BodyM.base], by simp [d70, P7, Params.base], ?_⟩
  obtain ⟨e1, is1, iv1, vr1, bt1, sp1, vd1⟩ := bodyNew_offspring P7 b7 d70
  refine ⟨bodyNew P7 b7.pos (some b7.energy) b7.eatingStrategy
    (some b7.divisionThreshold) (some b7.skills) b7.bodyType (some b7.viruses)
    (some b7.initialSpeed) (some b7.initialVisionDistance) d70, ?_, ?_⟩
  · unfold handleProcreation
    rw [if_pos (by norm_num [b7, BodyM.base] : b7.energy > b7.divisionThreshold)]
    simp only
    rw [lookupA_insertA_ne _ _ _ _ (by norm_num : (3:ℕ) ≠ 2)]
    exact lookupA_insertA_self _ _ _
  · rw [sp1]
    rw [if_pos (by simp [b7] : (b7.viruses Virus.SpeedVirus).isSome)]
    norm_num [getWithDeviation, b7, BodyM.base, P7, Params.base, d70]

theorem findClosestPlant_mem (b : BodyM) (l : List (ℕ × PlantM)) (kind : PlantKind)
    (q : ℕ × PlantM) (h : findClosestPlant b l kind = some q) :
    q ∈ l ∧ q.2.kind = kind ∧
      ∀ y ∈ l, y.2.kind = kind → vdist b.pos q.2.pos ≤ vdist b.pos y.2.pos := by
  unfold findClosestPlant at h
  have hmem := minBy_mem _ _ _ h
  rw [mem_filterP] at hmem
  refine ⟨hmem.1, hmem.2, fun y hy hk => ?_⟩
  exact minBy_le _ _ _ h y (by rw [mem_filterP]; exact ⟨hy, hk⟩)

theorem findClosestPlant_none (b : BodyM) (l : List (ℕ × PlantM)) (kind : PlantKind)
    (h : findClosestPlant b l kind = none) : ∀ y ∈ l, y.2.kind ≠ kind := by
  unfold findClosestPlant at h
  rw [minBy_eq_none, filterP_eq_nil] at h
  exact h

theorem plantList_eq_nil (b : BodyM) (l : List (ℕ × PlantM))
    (hB : findClosestPlant b l .Banana = none)
    (hG : findClosestPlant b l .Grass = none) : l = [] := by
  have hB2 := findClosestPlant_none b l .Banana hB
  have hG2 := findClosestPlant_none b l .Grass hG
  cases l with
  | nil => rfl
  | cons q l =>
    exfalso
    rcases hk : q.2.kind with _ | _
    · exact hB2 q (by simp) hk
    · exact hG2 q (by simp) hk

/-- **C8.** The forage step considers candidates in the priority order
visible corpses, then visible plants with Banana preferred over Grass,
then visible opposing-lineage agents of strictly smaller energy; within
the first class with a surviving candidate it selects the nearest
candidate passing all currently-enabled skill predicates, and a
lower-priority class is consulted only when every higher-priority class
has no surviving candidate. -/
theorem C8_forage_priority (P : Params) (b : BodyM) (id : ℕ)
    (bodies : List (ℕ × BodyM)) (plants : List (ℕ × PlantM))
    (crosses : List (ℕ × CrossM)) (removedPlants removedBodies : List ℕ) :
    (∀ food, selectFood P b id bodies plants crosses removedPlants removedBodies =
        some food →
      (food.foodType = .Cross →
        ∃ c, (food.id, c) ∈ crossCandidates P b id crosses ∧ food.pos = c.pos ∧
          food.energy = c.energy ∧
          ∀ q ∈ crossCandidates P b id crosses,
            vdist b.pos c.pos ≤ vdist b.pos q.2.pos) ∧
      (food.foodType = .Plant →
        crossCandidates P b id crosses = [] ∧
        ∃ p, (food.id, p) ∈ plantCandidates P b id removedPlants plants ∧
          food.pos = p.pos ∧
          ((p.kind = .Banana ∧
            ∀ q ∈ plantCandidates P b id removedPlants plants, q.2.kind = .Banana →
              vdist b.pos p.pos ≤ vdist b.pos q.2.pos) ∨
           (p.kind = .Grass ∧
            (∀ q ∈ plantCandidates P b id removedPlants plants, q.2.kind ≠ .Banana) ∧
            ∀ q ∈ plantCandidates P b id removedPlants plants, q.2.kind = .Grass →
              vdist b.pos p.pos ≤ vdist b.pos q.2.pos))) ∧
      (food.foodType = .Body →
        crossCandidates P b id crosses = [] ∧
        plantCandidates P b id removedPlants plants = [] ∧
        ∃ o, (food.id, o) ∈ bodyCandidates P b id removedBodies bodies ∧
          food.pos = o.pos ∧ food.energy = o.energy ∧
          ∀ q ∈ bodyCandidates P b id removedBodies bodies,
            vdist b.pos o.pos ≤ vdist b.pos q.2.pos)) ∧
    (selectFood P b id bodies plants crosses removedPlants removedBodies = none →
      crossCandidates P b id crosses = [] ∧
      plantCandidates P b id removedPlants plants = [] ∧
      bodyCandidates P b id removedBodies bodies = []) := by
  rcases hmc : minBy (fun q => vdist b.pos q.2.pos) (crossCandidates P b id crosses)
    with _ | ⟨cid, c⟩
  case some =>
    constructor
    · intro food hf
      simp only [selectFood, hmc] at hf
      simp only [Option.some_inj] at hf
      subst hf
      refine ⟨fun _ => ?_, fun h => by simp at h, fun h => by simp at h⟩
      exact ⟨c, minBy_mem _ _ _ hmc, rfl, rfl, fun q hq => minBy_le _ _ _ hmc q hq⟩
    · intro hf
      simp only [selectFood, hmc] at hf
      simp at hf
  case none =>
  have hcnil : crossCandidates P b id crosses = [] := (minBy_eq_none _ _).mp hmc
  rcases hbn : findClosestPlant b (plantCandidates P b id removedPlants plants) .Banana
    with _ | ⟨pid, p⟩
  case some =>
    constructor
    · intro food hf
      simp only [selectFood, hmc, hbn] at hf
      simp only [Option.some_inj] at hf
      subst hf
      obtain ⟨hp1, hp2, hp3⟩ := findClosestPlant_mem _ _ _ _ hbn
      refine ⟨fun h => by simp at h, fun _ => ⟨hcnil, p, hp1, rfl, Or.inl ⟨hp2, hp3⟩⟩,
        fun h => by simp at h⟩
    · intro hf
      simp only [selectFood, hmc, hbn] at hf
      simp at hf
  case none =>
  rcases hgr : findClosestPlant b (plantCandidates P b id removedPlants plants) .Grass
    with _ | ⟨pid, p⟩
  case some =>
    constructor
    · intro food hf
      simp only [selectFood, hmc, hbn, hgr] at hf
      simp only [Option.some_inj] at hf
      subst hf
      obtain ⟨hp1, hp2, hp3⟩ := findClosestPlant_mem _ _ _ _ hgr
      refine ⟨fun h => by simp at h,
        fun _ => ⟨hcnil, p, hp1, rfl,
          Or.inr ⟨hp2, findClosestPlant_none _ _ _ hbn, hp3⟩⟩,
        fun h => by simp at h⟩
    · intro hf
      simp only [selectFood, hmc, hbn, hgr] at hf
      simp at hf
  case none =>
  have hpnil : plantCandidates P b id removedPlants plants = [] :=
    plantList_eq_nil b _ hbn hgr
  rcases hmb : minBy (fun q => vdist b.pos q.2.pos)
      (bodyCandidates P b id removedBodies bodies) with _ | ⟨oid, o⟩
  case some =>
    constructor
    · intro food hf
      simp only [selectFood, hmc, hbn, hgr, hmb] at hf
      simp only [Option.some_inj] at hf
      subst hf
      refine ⟨fun h => by simp at h, fun h => by simp at h, fun _ => ?_⟩
      exact ⟨hcnil, hpnil, o, minBy_mem _ _ _ hmb, rfl, rfl,
        fun q hq => minBy_le _ _ _ hmb q hq⟩
    · intro hf
      simp only [selectFood, hmc, hbn, hgr, hmb] at hf
      simp at hf
  case none =>
    constructor
    · intro food hf
      simp only [selectFood, hmc, hbn, hgr, hmb] at hf
      simp at hf
    · intro hf
      exact ⟨hcnil, hpnil, (minBy_eq_none _ _).mp hmb⟩

theorem cleanup_bodies_status (st : St) (s : StatusM) (id : ℕ) (f : Option ℕ) (k : ℕ) :
    (lookupA (cleanup st s id f).bodies k).map BodyM.status =
      (lookupA st.bodies k).map BodyM.status := by
  cases s with
  | FollowingTarget tid tpos tty =>
    show Option.map BodyM.status
        (lookupA (if f = some tid then st else
          match tty with
          | ObjectType.Body =>
              { st with bodies := updateA (dropFollowerB id) st.bodies tid }
          | ObjectType.Cross =>
              { st with crosses := updateA (dropFollowerC id) st.crosses tid }
          | ObjectType.Plant =>
              { st with plants := updateA (dropFollowerP id) st.plants tid }).bodies k) =
      Option.map BodyM.status (lookupA st.bodies k)
    by_cases hf : f = some tid
    · rw [if_pos hf]
    · rw [if_neg hf]
      cases tty with
      | Body =>
        simp only
        by_cases hk : tid = k
        · subst hk
          rw [lookupA_updateA_self]
          cases lookupA st.bodies tid <;> simp [dropFollowerB]
        · rw [lookupA_updateA_ne _ _ _ _ hk]
      | Plant => rfl
      | Cross => rfl
  | EscapingBody c t => rfl
  | Walking d => rfl
  | Cross => rfl
  | Idle => rfl

theorem cleanup_crosses_isSome (st : St) (s : StatusM) (id : ℕ) (f : Option ℕ) (k : ℕ) :
    (lookupA (cleanup st s id f).crosses k).isSome =
      (lookupA st.crosses k).isSome := by
  cases s with
  | FollowingTarget tid tpos tty =>
    show (lookupA (if f = some tid then st else
          match tty with
          | ObjectType.Body =>
              { st with bodies := updateA (dropFollowerB id) st.bodies tid }
          | ObjectType.Cross =>
              { st with crosses := updateA (dropFollowerC id) st.crosses tid }
          | ObjectType.Plant =>
              { st with plants := updateA (dropFollowerP id) st.plants tid }).crosses k).isSome =
      (lookupA st.crosses k).isSome
    by_cases hf : f = some tid
    · rw [if_pos hf]
    · rw [if_neg hf]
      cases tty with
      | Cross =>
        simp only
        by_cases hk : tid = k
        · subst hk
          rw [lookupA_updateA_self]
          cases lookupA st.crosses tid <;> simp
        · rw [lookupA_updateA_ne _ _ _ _ hk]
      | Plant => rfl
      | Body => rfl
  | EscapingBody c t => rfl
  | Walking d => rfl
  | Cross => rfl
  | Idle => rfl

/-- **C3** (amended).  An agent whose energy falls below `MIN_ENERGY` at
the death check is given `Cross` status and scheduled for removal, and the
end-of-tick removal application converts exactly the removed bodies in
`Cross` status into corpses (inserted into the store under the dead
agent's identity, carrying its position); an agent whose energy drops to 0
or below at the upkeep-cost deduction is scheduled for removal with its
status unchanged, so it is removed WITHOUT corpse conversion. -/
theorem C3_energy_death_paths :
    (∀ (P : Params) (b : BodyM) (id : ℕ) (removed : List ℕ),
      ((handleEnergy P b id removed).1.energy ≤ 0 ↔
        (handleEnergy P b id removed).2.2 = true) ∧
      ((handleEnergy P b id removed).2.2 = true →
        id ∈ (handleEnergy P b id removed).2.1) ∧
      (handleEnergy P b id removed).1.status = b.status) ∧
    (∀ (st : St) (id : ℕ) (b : BodyM), lookupA st.bodies id = some b →
      lookupA (applyRemovedBody st id).bodies id = none ∧
      (b.status = .Cross →
        lookupA (applyRemovedBody st id).crosses id = some (crossNew b)) ∧
      (b.status ≠ .Cross → ∀ cid,
        (lookupA (applyRemovedBody st id).crosses cid).isSome =
          (lookupA st.crosses cid).isSome)) ∧
    (∀ (P : Params) (draws : ℕ → Draws) (st : St) (id : ℕ) (b0 : BodyM),
      lookupA st.bodies id = some b0 →
      (handleLifespan P (handleViruses P b0)).energy < P.minEnergy ∨
        (handleLifespan P (handleViruses P b0)).age >
          (handleLifespan P (handleViruses P b0)).lifespan →
      id ∈ (bodyStep P draws st id).removedBodies ∧
      lookupA (bodyStep P draws st id).bodies id =
        some { handleLifespan P (handleViruses P b0) with status := .Cross }) := by
  refine ⟨?_, ?_, ?_⟩
  · intro P b id removed
    unfold handleEnergy
    by_cases hd : (if b.status.isIdle then
        b.energy - (P.constMass * b.energy + P.constSkills * (b.skills.card : ℝ) +
          P.constVision * b.visionDistance ^ 2)
      else
        (b.energy - (P.constMass * b.energy + P.constSkills * (b.skills.card : ℝ) +
          P.constVision * b.visionDistance ^ 2)) -
          P.constMovement * b.speed ^ 2 *
            (b.energy - (P.constMass * b.energy + P.constSkills * (b.skills.card : ℝ) +
              P.constVision * b.visionDistance ^ 2))) ≤ 0
    · simp only [if_pos hd]
      refine ⟨⟨fun _ => by trivial, fun _ => hd⟩, fun _ => ?_, by trivial⟩
      unfold insertS
      by_cases hmem : id ∈ removed
      · rw [if_pos hmem]
        exact hmem
      · rw [if_neg hmem]
        simp
    · simp only [if_neg hd]
      refine ⟨⟨fun h => absurd h hd, fun h => by simp_all⟩, fun h => by simp_all,
        by trivial⟩
  · intro st id b hb
    by_cases hcs : b.status = .Cross
    · unfold applyRemovedBody
      rw [hb]
      simp only
      rw [show cleanup st b.status id none = st by rw [hcs]; rfl]
      rw [hb]
      simp only [hcs]
      exact ⟨lookupA_removeA_self _ _, fun _ => lookupA_insertA_self _ _ _,
        fun h => absurd rfl h⟩
    · unfold applyRemovedBody
      rw [hb]
      simp only
      have hst1 := cleanup_bodies_status st b.status id none id
      rw [hb] at hst1
      obtain ⟨b2, hlook⟩ :
          ∃ b2, lookupA (cleanup st b.status id none).bodies id = some b2 := by
        cases hlook2 : lookupA (cleanup st b.status id none).bodies id with
        | none =>
          rw [hlook2] at hst1
          exact absurd hst1 (by simp)
        | some b2 => exact ⟨b2, rfl⟩
      rw [hlook] at hst1
      simp at hst1
      rw [hlook]
      simp only
      cases hb2s : b2.status with
      | Cross => exact absurd (hst1.symm.trans hb2s) hcs
      | FollowingTarget tid2 tp2 tt2 =>
        exact ⟨lookupA_removeA_self _ _, fun h => absurd h hcs,
          fun _ cid => cleanup_crosses_isSome st b.status id none cid⟩
      | EscapingBody c2 t2 =>
        exact ⟨lookupA_removeA_self _ _, fun h => absurd h hcs,
          fun _ cid => cleanup_crosses_isSome st b.status id none cid⟩
      | Walking d2 =>
        exact ⟨lookupA_removeA_self _ _, fun h => absurd h hcs,
          fun _ cid => cleanup_crosses_isSome st b.status id none cid⟩
      | Idle =>
        exact ⟨lookupA_removeA_self _ _, fun h => absurd h hcs,
          fun _ cid => cleanup_crosses_isSome st b.status id none cid⟩
  · intro P draws st id b0 hb hdead
    unfold bodyStep
    rw [hb]
    simp only
    rw [if_pos hdead]
    refine ⟨?_, lookupA_insertA_self _ _ _⟩
    unfold insertS
    by_cases hmem : id ∈ st.removedBodies
    · rw [if_pos hmem]
      exact hmem
    · rw [if_neg hmem]
      simp

/-- Witness for C3 at concrete inputs: the upkeep deduction kills `b3`
(energy 2 − mass cost 2 = 0) and the removal application deletes it
without inserting any corpse. -/
theorem C3_energy_death_paths_witness :
    ((handleEnergy P3 b3 1 []).1.energy ≤ 0 ∧ lookupA st3.bodies 1 = some b3 ∧
      b3.status ≠ StatusM.Cross) ∧
    ((handleEnergy P3 b3 1 []).2.2 = true ∧
      lookupA (applyRemovedBody st3 1).bodies 1 = none ∧
      ∀ cid, (lookupA (applyRemovedBody st3 1).crosses cid).isSome =
        (lookupA st3.crosses cid).isSome) := by
  have hen : (handleEnergy P3 b3 1 []).1.energy ≤ 0 := by
    norm_num [handleEnergy, P3, b3, BodyM.base, Params.base, StatusM.isIdle]
  have hlk : lookupA st3.bodies 1 = some b3 := by
    norm_num [st3, lookupA]
  have hns : b3.status ≠ StatusM.Cross := by
    simp [b3, BodyM.base]
  refine ⟨⟨hen, hlk, hns⟩, ?_, ?_, ?_⟩
  · exact (C3_energy_death_paths.1 P3 b3 1 []).1.mp hen
  · exact (C3_energy_death_paths.2.1 st3 1 b3 hlk).1
  · exact (C3_energy_death_paths.2.1 st3 1 b3 hlk).2.2 hns

/-- Counterexample for **C3** as stated: the agent `b3` runs out of energy
at the upkeep-cost deduction during the tick, is scheduled for removal
and removed, but NO corpse is created: after the full tick both the agent
registry and the cross store are empty, contradicting the claimed
conversion into a corpse in the grid cell owning its position. -/
theorem C3_counterexample :
    (handleEnergy P3 b3 1 []).1.energy ≤ 0 ∧
    (handleEnergy P3 b3 1 []).2.2 = true ∧
    (runTick P3 draws0 [(1, b3)] [] [] []).bodies = [] ∧
    (runTick P3 draws0 [(1, b3)] [] [] []).crosses = [] := by
  have hen : (handleEnergy P3 b3 1 []).1.energy ≤ 0 := by
    norm_num [handleEnergy, P3, b3, BodyM.base, Params.base, StatusM.isIdle]
  refine ⟨hen, (C3_energy_death_paths.1 P3 b3 1 []).1.mp hen, ?_, ?_⟩ <;>
    norm_num [runTick, bodyStep, applyEnd, applyRemovedBody, handleViruses,
      handleLifespan, handleEnergy, cleanup, lookupA, insertA, removeA, insertS,
      updateA, filterP, StatusM.isIdle, P3, b3, BodyM.base, Params.base]

/-- **C2** (code bug).  Pre-tick state: agent 1 pursues agent 2 with status
`FollowingTarget(2, ..)` and a matching entry in 2's pursuer map (a
consistent reference graph).  During the tick, agent 1's energy (0) is
below `MIN_ENERGY` at the death check, which overwrites its status with
`Cross` and schedules it for removal; the end-of-tick
`followed_by_cleanup` then reads that `Cross` status, finds no
`FollowingTarget` to deregister, and leaves agent 1's entry in agent 2's
pursuer map.  After the tick, agent 1 no longer exists but still appears
in agent 2's pursuer map — the claimed end-of-tick reference-graph
consistency is violated. -/
theorem C2_reference_graph_ghost :
    lookupA (runTick P2 draws0 [(1, bP2), (2, bT2)] [] [] []).bodies 1 = none ∧
    ((lookupA (runTick P2 draws0 [(1, bP2), (2, bT2)] [] [] []).bodies 2).map
      (fun t => lookupA t.followedBy 1)) = some (some snapP2) := by
  constructor <;>
    norm_num [runTick, bodyStep, applyEnd, applyRemovedBody, handleViruses,
      handleLifespan, handleEnergy, cleanup, lookupA, insertA, removeA, insertS,
      updateA, filterP, minBy, minStep, StatusM.isIdle, crossNew, wrap,
      vdist_same_y, P2, bP2, bT2, snapP2, BodyM.base, Params.base]

theorem abs_le_of_sq_le (u r : ℝ) (hr : 0 ≤ r) (h : u ^ 2 ≤ r ^ 2) : |u| ≤ r := by
  nlinarith [sq_abs u, abs_nonneg u]

theorem le_sqrt_of_sq_le (u s : ℝ) (hu : 0 ≤ u) (h : u ^ 2 ≤ s) : u ≤ Real.sqrt s := by
  calc u = Real.sqrt (u ^ 2) := (Real.sqrt_sq hu).symm
  _ ≤ Real.sqrt s := Real.sqrt_le_sqrt h

theorem floor_div_mono (x y h : ℝ) (hh : 0 < h) (hxy : x ≤ y) :
    ⌊x / h⌋ ≤ ⌊y / h⌋ :=
  Int.floor_le_floor (div_le_div_of_le_of_nonneg hxy hh.le)

theorem floor_div_mul_le (y h : ℝ) (hh : 0 < h) : (⌊y / h⌋ : ℝ) * h ≤ y := by
  have h1 : (⌊y / h⌋ : ℝ) ≤ y / h := Int.floor_le _
  calc (⌊y / h⌋ : ℝ) * h ≤ y / h * h := by nlinarith
  _ = y := div_mul_cancel₀ y hh.ne'

theorem lt_floor_div_add_one_mul (y h : ℝ) (hh : 0 < h) :
    y < ((⌊y / h⌋ : ℝ) + 1) * h := by
  have h1 : y / h < (⌊y / h⌋ : ℝ) + 1 := Int.lt_floor_add_one _
  calc y = y / h * h := (div_mul_cancel₀ y hh.ne').symm
  _ < ((⌊y / h⌋ : ℝ) + 1) * h := by nlinarith

theorem floor_div_lt_of_lt (y h : ℝ) (c : ℕ) (hh : 0 < h) (hy : y < (c : ℝ) * h) :
    ⌊y / h⌋ < (c : ℤ) := by
  rw [Int.floor_lt]
  push_cast
  rw [div_lt_iff hh]
  linarith

/-- The farthest-corner square bound: for `t` inside the slab
`[c, c + wd]`, the squared distance of `t` from `a` is at most that of the
endpoint on the side of the slab's centre. -/
theorem sq_le_far_corner (c wd a t : ℝ) (hw : 0 < wd) (h1 : c ≤ t) (h2 : t ≤ c + wd) :
    (t - a) ^ 2 ≤ (if c + wd / 2 > a then (c + wd - a) ^ 2 else (c - a) ^ 2) := by
  by_cases hc : c + wd / 2 > a
  · rw [if_pos hc]
    nlinarith
  · rw [if_neg hc]
    push_neg at hc
    nlinarith

theorem cellOfI_spec (g : Cells) (y : ℝ) (hh : 0 < g.cellHeight) (hr : 0 < g.rows)
    (hy0 : 0 ≤ y) (hyr : y < (g.rows : ℝ) * g.cellHeight) :
    ((cellOfI g y : ℤ) = ⌊y / g.cellHeight⌋) ∧
    (cellOfI g y : ℝ) * g.cellHeight ≤ y ∧
    y < ((cellOfI g y : ℝ) + 1) * g.cellHeight ∧
    cellOfI g y ≤ g.rows - 1 := by
  have h0 : 0 ≤ ⌊y / g.cellHeight⌋ := Int.floor_nonneg.mpr (div_nonneg hy0 hh.le)
  have hlt : ⌊y / g.cellHeight⌋ < (g.rows : ℤ) :=
    floor_div_lt_of_lt y g.cellHeight g.rows hh hyr
  have heq : (cellOfI g y : ℤ) = ⌊y / g.cellHeight⌋ := by
    unfold cellOfI
    omega
  have hR : (cellOfI g y : ℝ) = ((⌊y / g.cellHeight⌋ : ℤ) : ℝ) := by
    exact_mod_cast heq
  refine ⟨heq, ?_, ?_, ?_⟩
  · rw [hR]
    exact floor_div_mul_le y g.cellHeight hh
  · rw [hR]
    exact lt_floor_div_add_one_mul y g.cellHeight hh
  · unfold cellOfI
    omega

theorem cellOfJ_spec (g : Cells) (x : ℝ) (hw : 0 < g.cellWidth) (hc : 0 < g.columns)
    (hx0 : 0 ≤ x) (hxc : x < (g.columns : ℝ) * g.cellWidth) :
    ((cellOfJ g x : ℤ) = ⌊x / g.cellWidth⌋) ∧
    (cellOfJ g x : ℝ) * g.cellWidth ≤ x ∧
    x < ((cellOfJ g x : ℝ) + 1) * g.cellWidth ∧
    cellOfJ g x ≤ g.columns - 1 := by
  have h0 : 0 ≤ ⌊x / g.cellWidth⌋ := Int.floor_nonneg.mpr (div_nonneg hx0 hw.le)
  have hlt : ⌊x / g.cellWidth⌋ < (g.columns : ℤ) :=
    floor_div_lt_of_lt x g.cellWidth g.columns hw hxc
  have heq : (cellOfJ g x : ℤ) = ⌊x / g.cellWidth⌋ := by
    unfold cellOfJ
    omega
  have hR : (cellOfJ g x : ℝ) = ((⌊x / g.cellWidth⌋ : ℤ) : ℝ) := by
    exact_mod_cast heq
  refine ⟨heq, ?_, ?_, ?_⟩
  · rw [hR]
    exact floor_div_mul_le x g.cellWidth hw
  · rw [hR]
    exact lt_floor_div_add_one_mul x g.cellWidth hw
  · unfold cellOfJ
    omega

theorem rowDelta_eq (g : Cells) (b r : ℝ) (centerI i : ℕ) (hr : 0 < r) :
    rowDelta g b r centerI i =
      Real.sqrt (r ^ 2 -
        (((if i < centerI then i + 1 else i : ℕ) : ℝ) * g.cellHeight - b) ^ 2) := by
  show r * Real.sqrt (1 -
      ((((if i < centerI then i + 1 else i : ℕ) : ℝ) * g.cellHeight - b) / r) ^ 2) = _
  set e : ℝ := ((if i < centerI then i + 1 else i : ℕ) : ℝ) * g.cellHeight with he
  have h1 : (1 : ℝ) - ((e - b) / r) ^ 2 = (r ^ 2 - (e - b) ^ 2) / r ^ 2 := by
    field_simp
  rw [h1]
  calc r * Real.sqrt ((r ^ 2 - (e - b) ^ 2) / r ^ 2)
      = Real.sqrt (r ^ 2) * Real.sqrt ((r ^ 2 - (e - b) ^ 2) / r ^ 2) := by
        rw [Real.sqrt_sq hr.le]
    _ = Real.sqrt (r ^ 2 * ((r ^ 2 - (e - b) ^ 2) / r ^ 2)) :=
        (Real.sqrt_mul (sq_nonneg r) _).symm
    _ = Real.sqrt (r ^ 2 - (e - b) ^ 2) := by
        congr 1
        field_simp

set_option maxHeartbeats 1000000 in
theorem getVisible_sound (g : Cells) (store : ℕ × ℕ → List (ℕ × (ℝ × ℝ)))
    (pop : List (ℕ × (ℝ × ℝ))) (a b r : ℝ)
    (hw : 0 < g.cellWidth) (hh : 0 < g.cellHeight)
    (hrows : 0 < g.rows) (hcols : 0 < g.columns) (hr : 0 ≤ r)
    (hstore : ∀ c e, e ∈ store c ↔ e ∈ pop ∧ (cellOfI g e.2.2, cellOfJ g e.2.1) = c)
    (hpop : ∀ e ∈ pop, 0 ≤ e.2.1 ∧ e.2.1 < (g.columns : ℝ) * g.cellWidth ∧
      0 ≤ e.2.2 ∧ e.2.2 < (g.rows : ℝ) * g.cellHeight)
    (e : ℕ × (ℝ × ℝ)) (he : e ∈ getVisible g a b r store) :
    e ∈ pop ∧ vdist (a, b) e.2 ≤ r := by
  obtain ⟨i, hi1, hi2, j, hj1, hj2, hmem, hcov⟩ := he
  obtain ⟨hepop, hcell⟩ := (hstore (i, j) e).mp hmem
  refine ⟨hepop, ?_⟩
  rcases hcov with hfull | hdist
  · obtain ⟨hx0, hxc, hy0, hyc⟩ := hpop e hepop
    rw [Prod.mk.injEq] at hcell
    obtain ⟨rfl, rfl⟩ := hcell
    obtain ⟨_, hjl, hju, _⟩ := cellOfJ_spec g e.2.1 hw hcols hx0 hxc
    obtain ⟨_, hil, hiu, _⟩ := cellOfI_spec g e.2.2 hh hrows hy0 hyc
    have hcx := sq_le_far_corner ((cellOfJ g e.2.1 : ℝ) * g.cellWidth) g.cellWidth a
      e.2.1 hw hjl (by nlinarith)
    have hcy := sq_le_far_corner ((cellOfI g e.2.2 : ℝ) * g.cellHeight) g.cellHeight b
      e.2.2 hh hil (by nlinarith)
    unfold vdist
    rw [sqrt_le_iff_sq _ _ (dist2_nonneg _ _)]
    refine ⟨hr, ?_⟩
    unfold dist2
    simp only [fullyCovered] at hfull
    by_cases hbj : (cellOfJ g e.2.1 : ℝ) * g.cellWidth + g.cellWidth / 2 > a
    · rw [if_pos hbj] at hfull hcx
      by_cases hbi : (cellOfI g e.2.2 : ℝ) * g.cellHeight + g.cellHeight / 2 > b
      · rw [if_pos hbi] at hfull hcy
        push_cast at hfull
        linarith [hfull, hcx, hcy, sq_nonneg (a - e.2.1), sq_nonneg (b - e.2.2),
          sq_nonneg (e.2.1 - a), sq_nonneg (e.2.2 - b)]
      · rw [if_neg hbi] at hfull hcy
        push_cast at hfull
        linarith [hfull, hcx, hcy, sq_nonneg (a - e.2.1), sq_nonneg (b - e.2.2),
          sq_nonneg (e.2.1 - a), sq_nonneg (e.2.2 - b)]
    · rw [if_neg hbj] at hfull hcx
      by_cases hbi : (cellOfI g e.2.2 : ℝ) * g.cellHeight + g.cellHeight / 2 > b
      · rw [if_pos hbi] at hfull hcy
        push_cast at hfull
        linarith [hfull, hcx, hcy, sq_nonneg (a - e.2.1), sq_nonneg (b - e.2.2),
          sq_nonneg (e.2.1 - a), sq_nonneg (e.2.2 - b)]
      · rw [if_neg hbi] at hfull hcy
        push_cast at hfull
        linarith [hfull, hcx, hcy, sq_nonneg (a - e.2.1), sq_nonneg (b - e.2.2),
          sq_nonneg (e.2.1 - a), sq_nonneg (e.2.2 - b)]
  · exact hdist

set_option maxHeartbeats 1000000 in
theorem getVisible_complete (g : Cells) (store : ℕ × ℕ → List (ℕ × (ℝ × ℝ)))
    (pop : List (ℕ × (ℝ × ℝ))) (a b r : ℝ)
    (hw : 0 < g.cellWidth) (hh : 0 < g.cellHeight)
    (hrows : 0 < g.rows) (hcols : 0 < g.columns) (hr : 0 ≤ r)
    (hb0 : 0 ≤ b) (hbr : b < (g.rows : ℝ) * g.cellHeight)
    (hstore : ∀ c e, e ∈ store c ↔ e ∈ pop ∧ (cellOfI g e.2.2, cellOfJ g e.2.1) = c)
    (hpop : ∀ e ∈ pop, 0 ≤ e.2.1 ∧ e.2.1 < (g.columns : ℝ) * g.cellWidth ∧
      0 ≤ e.2.2 ∧ e.2.2 < (g.rows : ℝ) * g.cellHeight)
    (e : ℕ × (ℝ × ℝ)) (hepop : e ∈ pop) (hdist : vdist (a, b) e.2 ≤ r) :
    e ∈ getVisible g a b r store := by
  obtain ⟨hx0, hxc, hy0, hyc⟩ := hpop e hepop
  obtain ⟨hiZ, hil, hiu, hirows⟩ := cellOfI_spec g e.2.2 hh hrows hy0 hyc
  obtain ⟨hjZ, hjl, hju, hjcols⟩ := cellOfJ_spec g e.2.1 hw hcols hx0 hxc
  obtain ⟨hcZ, hcl, hcu, hcrows⟩ := cellOfI_spec g b hh hrows hb0 hbr
  have hd2 : dist2 (a, b) e.2 ≤ r ^ 2 :=
    ((sqrt_le_iff_sq (dist2 (a, b) e.2) r (dist2_nonneg _ _)).mp hdist).2
  have hd2x : (e.2.1 - a) ^ 2 + (e.2.2 - b) ^ 2 ≤ r ^ 2 := by
    unfold dist2 at hd2
    nlinarith [hd2]
  have habsx : |e.2.1 - a| ≤ r :=
    abs_le_of_sq_le _ _ hr (by nlinarith [sq_nonneg (e.2.2 - b)])
  have habsy : |e.2.2 - b| ≤ r :=
    abs_le_of_sq_le _ _ hr (by nlinarith [sq_nonneg (e.2.1 - a)])
  obtain ⟨hax1, hax2⟩ := abs_le.mp habsx
  obtain ⟨hay1, hay2⟩ := abs_le.mp habsy
  have hjrange : jMinRow g a b r (cellOfI g b) (cellOfI g e.2.2) ≤ cellOfJ g e.2.1 ∧
      cellOfJ g e.2.1 ≤ jMaxRow g a b r (cellOfI g b) (cellOfI g e.2.2) := by
    by_cases hic : cellOfI g e.2.2 = cellOfI g b
    · unfold jMinRow jMaxRow
      rw [if_pos hic, if_pos hic]
      have hm1 : ⌊(a - r) / g.cellWidth⌋ ≤ ⌊e.2.1 / g.cellWidth⌋ :=
        floor_div_mono _ _ _ hw (by linarith)
      have hm2 : ⌊e.2.1 / g.cellWidth⌋ ≤ ⌊(a + r) / g.cellWidth⌋ :=
        floor_div_mono _ _ _ hw (by linarith)
      constructor <;> omega
    · have hr0 : 0 < r := by
        rcases lt_or_eq_of_le hr with hr0 | hr0
        · exact hr0
        · exfalso
          have hyb : e.2.2 = b := by nlinarith [sq_nonneg (e.2.1 - a), sq_nonneg (e.2.2 - b)]
          exact hic (by rw [hyb])
      have hedge : ∀ ed : ℝ,
          |ed - b| ≤ |e.2.2 - b| →
          (e.2.1 - a) ^ 2 ≤ r ^ 2 - (ed - b) ^ 2 := by
        intro ed hed
        have h1 : (ed - b) ^ 2 ≤ (e.2.2 - b) ^ 2 := by
          nlinarith [sq_abs (ed - b), sq_abs (e.2.2 - b), abs_nonneg (ed - b),
            abs_nonneg (e.2.2 - b)]
        nlinarith [hd2x]
      unfold jMinRow jMaxRow
      rw [if_neg hic, if_neg hic, rowDelta_eq g b r (cellOfI g b) (cellOfI g e.2.2) hr0]
      rcases Nat.lt_or_ge (cellOfI g e.2.2) (cellOfI g b) with hlt | hge
      · rw [if_pos hlt]
        have hcast : ((cellOfI g e.2.2 + 1 : ℕ) : ℝ) = (cellOfI g e.2.2 : ℝ) + 1 := by
          push_cast
          ring
        have hbe : ((cellOfI g e.2.2 : ℝ) + 1) * g.cellHeight ≤ b := by
          have hle : ((cellOfI g e.2.2 : ℝ) + 1) ≤ (cellOfI g b : ℝ) := by
            have : cellOfI g e.2.2 + 1 ≤ cellOfI g b := hlt
            exact_mod_cast this
          calc ((cellOfI g e.2.2 : ℝ) + 1) * g.cellHeight
              ≤ (cellOfI g b : ℝ) * g.cellHeight := by nlinarith
          _ ≤ b := hcl
        have habs : |((cellOfI g e.2.2 + 1 : ℕ) : ℝ) * g.cellHeight - b| ≤ |e.2.2 - b| := by
          rw [hcast]
          rw [abs_sub_comm, abs_of_nonneg (by linarith), abs_sub_comm,
            abs_of_nonneg (by linarith)]
          linarith
        have hsq := hedge _ habs
        have hxd : |e.2.1 - a| ≤
            Real.sqrt (r ^ 2 - (((cellOfI g e.2.2 + 1 : ℕ) : ℝ) * g.cellHeight - b) ^ 2) :=
          le_sqrt_of_sq_le _ _ (abs_nonneg _) (by rw [sq_abs]; exact hsq)
        obtain ⟨hax1d, hax2d⟩ := abs_le.mp hxd
        have hm1 : ⌊(a - Real.sqrt (r ^ 2 -
            (((cellOfI g e.2.2 + 1 : ℕ) : ℝ) * g.cellHeight - b) ^ 2)) / g.cellWidth⌋ ≤
            ⌊e.2.1 / g.cellWidth⌋ :=
          floor_div_mono _ _ _ hw (by linarith)
        have hm2 : ⌊e.2.1 / g.cellWidth⌋ ≤ ⌊(a + Real.sqrt (r ^ 2 -
            (((cellOfI g e.2.2 + 1 : ℕ) : ℝ) * g.cellHeight - b) ^ 2)) / g.cellWidth⌋ :=
          floor_div_mono _ _ _ hw (by linarith)
        constructor <;> omega
      · have hgt : cellOfI g b < cellOfI g e.2.2 :=
          lt_of_le_of_ne hge (fun hcc => hic hcc.symm)
        rw [if_neg (by omega)]
        have hbe : b < (cellOfI g e.2.2 : ℝ) * g.cellHeight := by
          have hle : ((cellOfI g b : ℝ) + 1) ≤ (cellOfI g e.2.2 : ℝ) := by
            have : cellOfI g b + 1 ≤ cellOfI g e.2.2 := hgt
            exact_mod_cast this
          calc b < ((cellOfI g b : ℝ) + 1) * g.cellHeight := hcu
          _ ≤ (cellOfI g e.2.2 : ℝ) * g.cellHeight := by nlinarith
        have habs : |((cellOfI g e.2.2 : ℕ) : ℝ) * g.cellHeight - b| ≤ |e.2.2 - b| := by
          rw [abs_of_nonneg (by linarith), abs_of_nonneg (by linarith)]
          linarith
        have hsq := hedge _ habs
        have hxd : |e.2.1 - a| ≤
            Real.sqrt (r ^ 2 - (((cellOfI g e.2.2 : ℕ) : ℝ) * g.cellHeight - b) ^ 2) :=
          le_sqrt_of_sq_le _ _ (abs_nonneg _) (by rw [sq_abs]; exact hsq)
        obtain ⟨hax1d, hax2d⟩ := abs_le.mp hxd
        have hm1 : ⌊(a - Real.sqrt (r ^ 2 -
            (((cellOfI g e.2.2 : ℕ) : ℝ) * g.cellHeight - b) ^ 2)) / g.cellWidth⌋ ≤
            ⌊e.2.1 / g.cellWidth⌋ :=
          floor_div_mono _ _ _ hw (by linarith)
        have hm2 : ⌊e.2.1 / g.cellWidth⌋ ≤ ⌊(a + Real.sqrt (r ^ 2 -
            (((cellOfI g e.2.2 : ℕ) : ℝ) * g.cellHeight - b) ^ 2)) / g.cellWidth⌋ :=
          floor_div_mono _ _ _ hw (by linarith)
        constructor <;> omega
  refine ⟨cellOfI g e.2.2, ?_, ?_, cellOfJ g e.2.1, hjrange.1, hjrange.2, ?_,
    Or.inr hdist⟩
  · unfold iMinV
    have hm : ⌊(b - r) / g.cellHeight⌋ ≤ ⌊e.2.2 / g.cellHeight⌋ :=
      floor_div_mono _ _ _ hh (by linarith)
    omega
  · unfold iMaxV
    have hm : ⌊e.2.2 / g.cellHeight⌋ ≤ ⌊(b + r) / g.cellHeight⌋ :=
      floor_div_mono _ _ _ hh (by linarith)
    omega
  · rw [hstore]
    exact ⟨hepop, rfl⟩

/-- **C1.** For every origin inside the arena, every vision radius, and
every population of entities of one kind placed in the grid cells owning
their positions, the `get_visible` query returns exactly the entities
within Euclidean distance ≤ radius of the origin: no entity within the
radius is omitted, and no entity outside it is included. -/
theorem C1_get_visible_exact (g : Cells) (store : ℕ × ℕ → List (ℕ × (ℝ × ℝ)))
    (pop : List (ℕ × (ℝ × ℝ))) (a b r : ℝ)
    (hw : 0 < g.cellWidth) (hh : 0 < g.cellHeight)
    (hrows : 0 < g.rows) (hcols : 0 < g.columns) (hr : 0 ≤ r)
    (hb0 : 0 ≤ b) (hbr : b < (g.rows : ℝ) * g.cellHeight)
    (hstore : ∀ c e, e ∈ store c ↔ e ∈ pop ∧ (cellOfI g e.2.2, cellOfJ g e.2.1) = c)
    (hpop : ∀ e ∈ pop, 0 ≤ e.2.1 ∧ e.2.1 < (g.columns : ℝ) * g.cellWidth ∧
      0 ≤ e.2.2 ∧ e.2.2 < (g.rows : ℝ) * g.cellHeight) :
    ∀ e, e ∈ getVisible g a b r store ↔ e ∈ pop ∧ vdist (a, b) e.2 ≤ r :=
  fun e =>
    ⟨getVisible_sound g store pop a b r hw hh hrows hcols hr hstore hpop e,
     fun h => getVisible_complete g store pop a b r hw hh hrows hcols hr hb0 hbr
       hstore hpop e h.1 h.2⟩

/-- Witness for C1 at a concrete world: a 1 × 1 grid of unit cells, origin
(1/2, 1/2), radius 1, one entity at the origin. -/
theorem C1_get_visible_exact_witness :
    ((0:ℝ) < G1.cellWidth ∧ 0 < G1.rows ∧ (0:ℝ) ≤ 1 ∧ (0:ℝ) ≤ 1/2 ∧
      (1/2 : ℝ) < (G1.rows : ℝ) * G1.cellHeight) ∧
    e1 ∈ getVisible G1 (1/2) (1/2) 1 store1 := by
  have hcI : cellOfI G1 (1/2 : ℝ) = 0 := by
    norm_num [cellOfI, G1]
  have hcJ : cellOfJ G1 (1/2 : ℝ) = 0 := by
    norm_num [cellOfJ, G1]
  have hstore : ∀ c e, e ∈ store1 c ↔
      e ∈ [e1] ∧ (cellOfI G1 e.2.2, cellOfJ G1 e.2.1) = c := by
    intro c e
    unfold store1
    by_cases hc : c = ((0:ℕ), (0:ℕ))
    · subst hc
      rw [if_pos rfl]
      constructor
      · intro hme
        refine ⟨hme, ?_⟩
        simp only [List.mem_singleton] at hme
        subst hme
        rw [show e1.2.2 = (1/2 : ℝ) from rfl, show e1.2.1 = (1/2 : ℝ) from rfl,
          hcI, hcJ]
      · intro h
        exact h.1
    · rw [if_neg hc]
      simp only [List.not_mem_nil, false_iff]
      rintro ⟨h1, h2⟩
      simp only [List.mem_singleton] at h1
      subst h1
      rw [show e1.2.2 = (1/2 : ℝ) from rfl, show e1.2.1 = (1/2 : ℝ) from rfl,
        hcI, hcJ] at h2
      exact hc h2.symm
  have hpop : ∀ e ∈ [e1], 0 ≤ e.2.1 ∧ e.2.1 < (G1.columns : ℝ) * G1.cellWidth ∧
      0 ≤ e.2.2 ∧ e.2.2 < (G1.rows : ℝ) * G1.cellHeight := by
    intro e he
    simp only [List.mem_singleton] at he
    subst he
    norm_num [e1, G1]
  refine ⟨⟨by norm_num [G1], by norm_num [G1], by norm_num, by norm_num,
    by norm_num [G1]⟩, ?_⟩
  refine (C1_get_visible_exact G1 store1 [e1] (1/2) (1/2) 1 (by norm_num [G1])
    (by norm_num [G1]) (by norm_num [G1]) (by norm_num [G1]) (by norm_num)
    (by norm_num) (by norm_num [G1]) hstore hpop e1).mpr ⟨by simp, ?_⟩
  rw [show e1.2 = ((1/2 : ℝ), (1/2 : ℝ)) from rfl]
  unfold vdist dist2
  norm_num

end Eportal
